import Mathlib

set_option linter.unusedVariables false
set_option linter.unreachableTactic false
set_option linter.unusedTactic false

/-!
Verification of the audio voice-manager core in `src/engine/audio/audio.cc`
(Torque Game Engine 1.5.1).

Modelling conventions for the shallow embedding:
* 32-bit machine integers (`U32`, `AUDIOHANDLE`) are modelled as `ℕ`,
  reduced mod `2 ^ 32` where wraparound matters (`subU32`).
* `F32` floating-point quantities (volumes, scores, distances, the gain
  lookup table) are modelled as exact rationals `ℚ`; the decimal literals
  of the source are taken at face value.
* Calls into OpenAL / the platform layer (listener position, source state,
  wall-clock time, the resource cache) are external collaborators; their
  answers enter the model as explicit parameters (oracles).
-/

namespace TGEAudio

/-! ## Handle bit layout (audio.cc lines 111-120) -/

def LOOPING_BIT : ℕ := 0x80000000
def STREAMING_BIT : ℕ := 0x40000000
def INACTIVE_BIT : ℕ := 0x20000000
def LOADING_BIT : ℕ := 0x10000000

/-- the modulus of 32-bit arithmetic -/
def WORD32 : ℕ := 2 ^ 32

/-- `HANDLE_MASK = ~(AUDIOHANDLE_LOOPING_BIT | AUDIOHANDLE_INACTIVE_BIT |
AUDIOHANDLE_LOADING_BIT)` as a 32-bit word (audio.cc line 115).  Note that
the source does not include `AUDIOHANDLE_STREAMING_BIT` in the mask, so the
mask keeps bit 30. -/
def HANDLE_MASK : ℕ := (WORD32 - 1) - (LOOPING_BIT + INACTIVE_BIT + LOADING_BIT)

/-- `RETURN_MASK = ~(AUDIOHANDLE_INACTIVE_BIT | AUDIOHANDLE_LOADING_BIT)`
(audio.cc line 119); also the mask used by `h &= ~(AUDIOHANDLE_INACTIVE_BIT |
AUDIOHANDLE_LOADING_BIT)` in alxPlay. -/
def RETURN_MASK : ℕ := (WORD32 - 1) - (INACTIVE_BIT + LOADING_BIT)

def NULL_AUDIOHANDLE : ℕ := 0
def MAX_AUDIOSOURCES : ℕ := 16
def MIN_GAIN : ℚ := 5 / 100
def MIN_UNCULL_PERIOD : ℕ := 500
def MIN_UNCULL_GAIN : ℚ := 1 / 10

/-- `areEqualHandles` (audio.cc lines 128-131). -/
def areEqualHandles (a b : ℕ) : Bool := (a &&& HANDLE_MASK) == (b &&& HANDLE_MASK)

/-- the identity of a handle as the comparison function sees it -/
def keyOf (h : ℕ) : ℕ := h &&& HANDLE_MASK

/-- the monotonically increasing sequence part of a handle (low 28 bits) -/
def seqOf (h : ℕ) : ℕ := h % 2 ^ 28

/-- unsigned 32-bit subtraction `a - b` as C computes it on `U32` -/
def subU32 (a b : ℕ) : ℕ := (a % WORD32 + (WORD32 - b % WORD32)) % WORD32

/-! ## Bit-level toolkit

Every handle the program builds is of the form `2 ^ 28 * f + s` with `s` the
sequence part (`s < 2 ^ 28`) and `f` the flag nibble (bit 31 looping, bit 30
streaming, bit 29 inactive, bit 28 loading).  The two decomposition lemmas
below turn all `&&&` / `|||` steps of the source into arithmetic on the two
parts. -/

theorem high_low_land (a b s u : ℕ) (hs : s < 2 ^ 28) (hu : u < 2 ^ 28) :
    (2 ^ 28 * a + s) &&& (2 ^ 28 * b + u) = 2 ^ 28 * (a &&& b) + (s &&& u) := by
  apply Nat.eq_of_testBit_eq
  intro j
  rw [Nat.testBit_and, Nat.testBit_mul_pow_two_add a hs j,
    Nat.testBit_mul_pow_two_add b hu j,
    Nat.testBit_mul_pow_two_add (a &&& b) (lt_of_le_of_lt Nat.and_le_left hs) j]
  by_cases hj : j < 28
  · simp [hj, Nat.testBit_and]
  · simp [hj, Nat.testBit_and]

theorem high_low_lor (a b s u : ℕ) (hs : s < 2 ^ 28) (hu : u < 2 ^ 28) :
    (2 ^ 28 * a + s) ||| (2 ^ 28 * b + u) = 2 ^ 28 * (a ||| b) + (s ||| u) := by
  apply Nat.eq_of_testBit_eq
  intro j
  rw [Nat.testBit_or, Nat.testBit_mul_pow_two_add a hs j,
    Nat.testBit_mul_pow_two_add b hu j,
    Nat.testBit_mul_pow_two_add (a ||| b) (Nat.or_lt_two_pow hs hu) j]
  by_cases hj : j < 28
  · simp [hj, Nat.testBit_or]
  · simp [hj, Nat.testBit_or]

theorem decompose28 (h : ℕ) : h = 2 ^ 28 * (h / 2 ^ 28) + h % 2 ^ 28 :=
  (Nat.div_add_mod h (2 ^ 28)).symm

theorem mod28_lt (h : ℕ) : h % 2 ^ 28 < 2 ^ 28 := Nat.mod_lt _ (by norm_num)

/-- the flag constants as high-part multiples -/
theorem LOOPING_BIT_eq : LOOPING_BIT = 2 ^ 28 * 8 + 0 := by decide
theorem STREAMING_BIT_eq : STREAMING_BIT = 2 ^ 28 * 4 + 0 := by decide
theorem INACTIVE_BIT_eq : INACTIVE_BIT = 2 ^ 28 * 2 + 0 := by decide
theorem LOADING_BIT_eq : LOADING_BIT = 2 ^ 28 * 1 + 0 := by decide
theorem HANDLE_MASK_eq : HANDLE_MASK = 2 ^ 28 * 4 + (2 ^ 28 - 1) := by decide
theorem RETURN_MASK_eq : RETURN_MASK = 2 ^ 28 * 12 + (2 ^ 28 - 1) := by decide

/-- a handle in the canonical form used by the invariants: sequence part `s`
plus the four role-flag bits -/
def mkHandle (s : ℕ) (lp st ina ld : Bool) : ℕ :=
  2 ^ 28 * (8 * cond lp 1 0 + 4 * cond st 1 0 + 2 * cond ina 1 0 + cond ld 1 0) + s

theorem keyOf_mkHandle (s : ℕ) (hs : s < 2 ^ 28) (lp st ina ld : Bool) :
    keyOf (mkHandle s lp st ina ld) = mkHandle s false st false false := by
  unfold keyOf mkHandle
  rw [HANDLE_MASK_eq, high_low_land _ _ _ _ hs (by norm_num),
    Nat.and_pow_two_sub_one_of_lt_two_pow hs]
  cases lp <;> cases st <;> cases ina <;> cases ld <;> norm_num
  all_goals decide

theorem seqOf_mkHandle (s : ℕ) (hs : s < 2 ^ 28) (lp st ina ld : Bool) :
    seqOf (mkHandle s lp st ina ld) = s := by
  unfold seqOf mkHandle
  rw [Nat.mul_add_mod, Nat.mod_eq_of_lt hs]

theorem mkHandle_or_inactive (s : ℕ) (hs : s < 2 ^ 28) (lp st ina ld : Bool) :
    mkHandle s lp st ina ld ||| INACTIVE_BIT = mkHandle s lp st true ld := by
  unfold mkHandle
  rw [INACTIVE_BIT_eq, high_low_lor _ _ _ _ hs (by norm_num)]
  cases lp <;> cases st <;> cases ina <;> cases ld <;> norm_num
  all_goals decide

theorem mkHandle_and_returnMask (s : ℕ) (hs : s < 2 ^ 28) (lp st ina ld : Bool) :
    mkHandle s lp st ina ld &&& RETURN_MASK = mkHandle s lp st false false := by
  unfold mkHandle
  rw [RETURN_MASK_eq, high_low_land _ _ _ _ hs (by norm_num),
    Nat.and_pow_two_sub_one_of_lt_two_pow hs]
  cases lp <;> cases st <;> cases ina <;> cases ld <;> norm_num
  all_goals decide

theorem mkHandle_and_inactive (s : ℕ) (hs : s < 2 ^ 28) (lp st ina ld : Bool) :
    mkHandle s lp st ina ld &&& INACTIVE_BIT = cond ina INACTIVE_BIT 0 := by
  unfold mkHandle
  rw [INACTIVE_BIT_eq, high_low_land _ _ _ _ hs (by norm_num)]
  cases lp <;> cases st <;> cases ina <;> cases ld <;> simp [Nat.and_zero] <;> decide

theorem mkHandle_and_looping (s : ℕ) (hs : s < 2 ^ 28) (lp st ina ld : Bool) :
    mkHandle s lp st ina ld &&& LOOPING_BIT = cond lp LOOPING_BIT 0 := by
  unfold mkHandle
  rw [LOOPING_BIT_eq, high_low_land _ _ _ _ hs (by norm_num)]
  cases lp <;> cases st <;> cases ina <;> cases ld <;> simp [Nat.and_zero] <;> decide

theorem mkHandle_and_streaming (s : ℕ) (hs : s < 2 ^ 28) (lp st ina ld : Bool) :
    mkHandle s lp st ina ld &&& STREAMING_BIT = cond st STREAMING_BIT 0 := by
  unfold mkHandle
  rw [STREAMING_BIT_eq, high_low_land _ _ _ _ hs (by norm_num)]
  cases lp <;> cases st <;> cases ina <;> cases ld <;> simp [Nat.and_zero] <;> decide

theorem mkHandle_and_loading (s : ℕ) (hs : s < 2 ^ 28) (lp st ina ld : Bool) :
    mkHandle s lp st ina ld &&& LOADING_BIT = cond ld LOADING_BIT 0 := by
  unfold mkHandle
  rw [LOADING_BIT_eq, high_low_land _ _ _ _ hs (by norm_num)]
  cases lp <;> cases st <;> cases ina <;> cases ld <;> simp [Nat.and_zero] <;> decide

theorem mkHandle_ne_zero (s : ℕ) (h0 : 0 < s) (lp st ina ld : Bool) :
    mkHandle s lp st ina ld ≠ 0 := by
  unfold mkHandle
  omega

theorem mkHandle_inj (s s' : ℕ) (hs : s < 2 ^ 28) (hs' : s' < 2 ^ 28)
    (lp st ina ld lp' st' ina' ld' : Bool) :
    mkHandle s lp st ina ld = mkHandle s' lp' st' ina' ld' →
      s = s' ∧ lp = lp' ∧ st = st' ∧ ina = ina' ∧ ld = ld' := by
  unfold mkHandle
  cases lp <;> cases st <;> cases ina <;> cases ld <;>
    cases lp' <;> cases st' <;> cases ina' <;> cases ld' <;> simp <;> omega

/-! ## Gain codec (audio.cc lines 2245-2316)

The `logtab` entries are decimal literals; they are modelled as the exact
rationals they denote (entries listed in thousandths). -/

/-- entries of `logtab` (audio.cc lines 2250-2276), in thousandths -/
def logtabK : List ℕ :=
  [0, 1, 2, 3, 4,
   5, 10, 11, 12, 13,
   14, 15, 16, 20, 21,
   22, 23, 24, 25, 30,
   31, 32, 33, 34, 40,
   41, 42, 43, 44, 50,
   51, 52, 53, 54, 60,
   61, 62, 63, 64, 70,
   71, 72, 73, 80, 81,
   82, 83, 84, 90, 91,
   92, 93, 94, 100, 101,
   102, 103, 110, 111, 112,
   113, 120, 121, 122, 123,
   124, 130, 131, 132, 140,
   141, 142, 143, 150, 151,
   152, 160, 161, 162, 170,
   171, 172, 180, 181, 190,
   191, 192, 200, 201, 210,
   211, 220, 221, 230, 231,
   240, 250, 251, 260, 270,
   271, 280, 290, 300, 301,
   310, 320, 330, 340, 350,
   360, 370, 380, 390, 400,
   410, 430, 500, 600, 650,
   700, 750, 800, 850, 900,
   950, 970, 990]

/-- a table entry in thousandths as the exact rational it denotes -/
def thousandth (n : ℕ) : ℚ := (n : ℚ) / 1000

def logtab : List ℚ := logtabK.map thousandth

/-- `logmax = sizeof logtab / sizeof *logtab` (audio.cc line 2277) -/
def logmax : ℕ := 128

theorem logtab_length : logtab.length = logmax := by
  simp [logtab, logtabK, logmax]

/-- the do-while binary-search loop of `Audio::DBToLinear` (audio.cc lines
2286-2304), with an explicit fuel argument.  `lo`, `hi`, `mid` are the
source's `min`, `max`, `mid`; the body reads `logtab[mid]`, breaks on an
exact match, narrows `min`/`max`, recomputes `mid = min + ((max - min) / 2)`
and exits when `last == mid`.  The value `none` is produced if the fuel runs
out or if the table access `logtab[mid]` would be out of bounds; the claim
theorem for C10 shows neither ever happens. -/
def dbSearch (value : ℚ) : ℕ → ℕ → ℕ → ℕ → Option ℕ
  | 0, _, _, _ => none
  | fuel + 1, lo, hi, mid =>
    if logmax ≤ mid then none
    else if logtab.getD mid 0 = value then some mid
    else if logtab.getD mid 0 < value then
      if mid + (hi - mid) / 2 = mid then some mid
      else dbSearch value fuel mid hi (mid + (hi - mid) / 2)
    else
      if lo + (mid - lo) / 2 = mid then some mid
      else dbSearch value fuel lo mid (lo + (mid - lo) / 2)

/-- `Audio::DBToLinear` (audio.cc lines 2279-2307) -/
def DBToLinear (value : ℚ) : ℚ :=
  if value ≤ 0 then 0
  else if 1 ≤ value then 1
  else
    match dbSearch value (logmax + 1) 0 logmax ((logmax - 0) / 2) with
    | some mid => (mid : ℚ) / logmax
    | none => 0

/-- `Audio::linearToDB` (audio.cc lines 2309-2316); the C cast `(U32)` of the
nonnegative float `logmax * value` truncates, i.e. takes the floor. -/
def linearToDB (value : ℚ) : ℚ :=
  if value ≤ 0 then 0
  else if 1 ≤ value then 1
  else logtab.getD (⌊(logmax : ℚ) * value⌋).toNat 0

theorem dbSearch_some (value : ℚ) :
    ∀ fuel lo hi mid, lo ≤ mid → mid < hi → hi ≤ logmax →
      mid = lo + (hi - lo) / 2 → hi - lo < fuel →
      ∃ m, m < logmax ∧ dbSearch value fuel lo hi mid = some m := by
  intro fuel
  induction fuel with
  | zero => intro lo hi mid _ _ _ _ hf; omega
  | succ n ih =>
    intro lo hi mid hlm hmh hhl hmid hf
    rw [dbSearch]
    rw [if_neg (by omega : ¬ logmax ≤ mid)]
    by_cases heq : logtab.getD mid 0 = value
    · rw [if_pos heq]
      exact ⟨mid, by omega, rfl⟩
    · rw [if_neg heq]
      by_cases hlt : logtab.getD mid 0 < value
      · rw [if_pos hlt]
        by_cases hstop : mid + (hi - mid) / 2 = mid
        · rw [if_pos hstop]
          exact ⟨mid, by omega, rfl⟩
        · rw [if_neg hstop]
          exact ih mid hi (mid + (hi - mid) / 2) (by omega) (by omega) hhl rfl (by omega)
      · rw [if_neg hlt]
        by_cases hstop : lo + (mid - lo) / 2 = mid
        · rw [if_pos hstop]
          exact ⟨mid, by omega, rfl⟩
        · rw [if_neg hstop]
          exact ih lo mid (lo + (mid - lo) / 2) (by omega) (by omega) (by omega) rfl (by omega)

/-- C10: the binary-search loop inside DBToLinear terminates for every input
value in (0,1) — the loop exits through its own `break` / `last == mid`
conditions within the provided fuel — and every access `logtab[mid]` it
performs is within the bounds of the lookup table (the out-of-bounds sentinel
`none` is never returned). -/
theorem claim_C10 (value : ℚ) (h0 : 0 < value) (h1 : value < 1) :
    ∃ m, m < logmax ∧
      dbSearch value (logmax + 1) 0 logmax ((logmax - 0) / 2) = some m := by
  clear h0 h1
  exact dbSearch_some value (logmax + 1) 0 logmax ((logmax - 0) / 2)
    (by norm_num [logmax]) (by norm_num [logmax]) le_rfl
    (by norm_num [logmax]) (by norm_num [logmax])

/-- C10 witness at the concrete input 1/2 -/
theorem claim_C10_witness :
    (0 : ℚ) < 1 / 2 ∧ (1 : ℚ) / 2 < 1 ∧
      ∃ m, m < logmax ∧
        dbSearch (1 / 2) (logmax + 1) 0 logmax ((logmax - 0) / 2) = some m :=
  ⟨by norm_num, by norm_num, claim_C10 (1 / 2) (by norm_num) (by norm_num)⟩

/-- the binary-search loop with the table read in thousandths (`logtabK`
instead of `logtab`): the same recursion as `dbSearch`, used to evaluate the
search on the concrete table values without rational arithmetic -/
def dbSearchN (value : ℕ) : ℕ → ℕ → ℕ → ℕ → Option ℕ
  | 0, _, _, _ => none
  | fuel + 1, lo, hi, mid =>
    if logmax ≤ mid then none
    else if logtabK.getD mid 0 = value then some mid
    else if logtabK.getD mid 0 < value then
      if mid + (hi - mid) / 2 = mid then some mid
      else dbSearchN value fuel mid hi (mid + (hi - mid) / 2)
    else
      if lo + (mid - lo) / 2 = mid then some mid
      else dbSearchN value fuel lo mid (lo + (mid - lo) / 2)

theorem logtab_getD (i : ℕ) : logtab.getD i 0 = thousandth (logtabK.getD i 0) := by
  rw [List.getD_eq_getElem?_getD, List.getD_eq_getElem?_getD]
  unfold logtab
  rw [List.getElem?_map]
  rcases h : logtabK[i]? with _ | a
  · simp [thousandth]
  · simp

theorem div1000_eq_iff (a b : ℕ) : thousandth a = thousandth b ↔ a = b := by
  unfold thousandth
  rw [div_eq_div_iff (by norm_num) (by norm_num)]
  constructor
  · intro h
    exact_mod_cast mul_right_cancel₀ (by norm_num : (1000 : ℚ) ≠ 0) h
  · rintro rfl
    rfl

theorem div1000_lt_iff (a b : ℕ) : thousandth a < thousandth b ↔ a < b := by
  unfold thousandth
  rw [div_lt_div_iff_of_pos_right (by norm_num : (0 : ℚ) < 1000)]
  exact_mod_cast Iff.rfl

theorem dbSearch_eq_dbSearchN (n : ℕ) :
    ∀ fuel lo hi mid,
      dbSearch (thousandth n) fuel lo hi mid = dbSearchN n fuel lo hi mid := by
  intro fuel
  induction fuel with
  | zero => intro lo hi mid; rfl
  | succ f ih =>
    intro lo hi mid
    rw [dbSearch, dbSearchN]
    by_cases hb : logmax ≤ mid
    · rw [if_pos hb, if_pos hb]
    rw [if_neg hb, if_neg hb, logtab_getD]
    by_cases he : logtabK.getD mid 0 = n
    · rw [if_pos ((div1000_eq_iff _ _).mpr he), if_pos he]
    rw [if_neg (fun h => he ((div1000_eq_iff _ _).mp h)), if_neg he]
    by_cases hl : logtabK.getD mid 0 < n
    · rw [if_pos ((div1000_lt_iff _ _).mpr hl), if_pos hl]
      by_cases hstop : mid + (hi - mid) / 2 = mid
      · rw [if_pos hstop, if_pos hstop]
      · rw [if_neg hstop, if_neg hstop, ih]
    · rw [if_neg (fun h => hl ((div1000_lt_iff _ _).mp h)), if_neg hl]
      by_cases hstop : lo + (mid - lo) / 2 = mid
      · rw [if_pos hstop, if_pos hstop]
      · rw [if_neg hstop, if_neg hstop, ih]

theorem dbSearchN_exact :
    ∀ k < logmax,
      dbSearchN (logtabK.getD k 0) (logmax + 1) 0 logmax ((logmax - 0) / 2) =
        some k := by decide

theorem logtabK_pos_bounds :
    ∀ k < logmax, 0 < k → 0 < logtabK.getD k 0 ∧ logtabK.getD k 0 < 1000 := by
  decide

/-- the binary search recovers the exact table index of any table value -/
theorem DBToLinear_table (k : ℕ) (hk : k < logmax) :
    DBToLinear (logtab.getD k 0) = (k : ℚ) / logmax := by
  rcases Nat.eq_zero_or_pos k with rfl | hkpos
  · have h0 : logtab.getD 0 0 = 0 := by
      rw [logtab_getD]
      norm_num [logtabK, thousandth]
    rw [h0]
    simp [DBToLinear]
  · obtain ⟨hp, hlt⟩ := logtabK_pos_bounds k hk hkpos
    rw [logtab_getD]
    unfold DBToLinear
    rw [if_neg, if_neg, dbSearch_eq_dbSearchN, dbSearchN_exact k hk]
    · rw [not_le]
      have h1000 : thousandth 1000 = 1 := by norm_num [thousandth]
      rw [show (1 : ℚ) = thousandth 1000 from h1000.symm]
      exact (div1000_lt_iff _ _).mpr hlt
    · rw [not_le]
      unfold thousandth
      positivity

theorem keyOf_eq_iff (s s' : ℕ) (hs : s < 2 ^ 28) (hs' : s' < 2 ^ 28) (st st' : Bool) :
    mkHandle s false st false false = mkHandle s' false st' false false ↔
      s = s' ∧ st = st' := by
  constructor
  · intro h
    have := mkHandle_inj s s' hs hs' false st false false false st' false false h
    tauto
  · rintro ⟨rfl, rfl⟩
    rfl

/-- C5: linearToDB and DBToLinear are pure functions clamping inputs at or
below 0 to 0 and at or above 1 to 1, and the round trip
`DBToLinear (linearToDB x)` stays within one lookup-table step `1 / logmax`
of `x` for every `x` in `[0, 1]`. -/
theorem claim_C5 :
    (∀ x : ℚ, x ≤ 0 → linearToDB x = 0 ∧ DBToLinear x = 0) ∧
    (∀ x : ℚ, 1 ≤ x → linearToDB x = 1 ∧ DBToLinear x = 1) ∧
    (∀ x : ℚ, 0 ≤ x → x ≤ 1 →
      |DBToLinear (linearToDB x) - x| ≤ 1 / logmax) := by
  refine ⟨?_, ?_, ?_⟩
  · intro x hx
    constructor <;> simp [linearToDB, DBToLinear, hx]
  · intro x hx
    have hx0 : ¬ x ≤ 0 := by
      intro h
      linarith
    constructor <;> simp [linearToDB, DBToLinear, hx, hx0]
  · intro x hx0 hx1
    rcases le_or_lt x 0 with h0 | h0
    · have hx : x = 0 := le_antisymm h0 hx0
      subst hx
      rw [show linearToDB 0 = 0 by simp [linearToDB]]
      rw [show DBToLinear 0 = 0 by simp [DBToLinear]]
      norm_num [logmax]
    rcases le_or_lt 1 x with h1 | h1
    · have hx : x = 1 := le_antisymm hx1 h1
      subst hx
      rw [show linearToDB 1 = 1 by simp [linearToDB]]
      rw [show DBToLinear 1 = 1 by simp [DBToLinear]]
      norm_num [logmax]
    · -- interior case: x falls into a bucket of the table
      have hlin : linearToDB x = logtab.getD (⌊(logmax : ℚ) * x⌋).toNat 0 := by
        rw [linearToDB, if_neg (not_le.mpr h0), if_neg (not_le.mpr h1)]
      have hlmQ : (logmax : ℚ) = 128 := by norm_num [logmax]
      rw [hlmQ] at hlin
      have hfl0 : (0 : ℤ) ≤ ⌊(128 : ℚ) * x⌋ := Int.floor_nonneg.mpr (by positivity)
      have hnz : ((⌊(128 : ℚ) * x⌋.toNat : ℕ) : ℤ) = ⌊(128 : ℚ) * x⌋ :=
        Int.toNat_of_nonneg hfl0
      have hcast : ((⌊(128 : ℚ) * x⌋.toNat : ℕ) : ℚ) = ((⌊(128 : ℚ) * x⌋ : ℤ) : ℚ) := by
        exact_mod_cast congrArg (fun z : ℤ => (z : ℚ)) hnz
      have hk_le : ((⌊(128 : ℚ) * x⌋.toNat : ℕ) : ℚ) ≤ 128 * x := by
        rw [hcast]
        exact Int.floor_le _
      have hk_gt : 128 * x < ((⌊(128 : ℚ) * x⌋.toNat : ℕ) : ℚ) + 1 := by
        rw [hcast]
        exact Int.lt_floor_add_one _
      have hkN : ⌊(128 : ℚ) * x⌋.toNat < logmax := by
        have hq : ((⌊(128 : ℚ) * x⌋.toNat : ℕ) : ℚ) < 128 := by nlinarith
        have hn : ⌊(128 : ℚ) * x⌋.toNat < 128 := by exact_mod_cast hq
        simpa [logmax] using hn
      rw [hlin, DBToLinear_table _ hkN, hlmQ, abs_le]
      constructor <;> linarith

/-- C5 witness at the concrete input 1/2 -/
theorem claim_C5_witness :
    |DBToLinear (linearToDB (1 / 2 : ℚ)) - 1 / 2| ≤ 1 / logmax :=
  claim_C5.2.2 (1 / 2) (by norm_num) (by norm_num)

/-! ## C4: handle equality and the role flags -/

/-- C4 counterexample: two handles with identical sequence bits that differ
only in the STREAMING bit are NOT matched by areEqualHandles — the claim
states they must address the same logical source. -/
theorem claim_C4_counterexample :
    areEqualHandles 1 (1 ||| STREAMING_BIT) = false ∧
    seqOf 1 = seqOf (1 ||| STREAMING_BIT) ∧
    (1 ||| STREAMING_BIT) = 1 + STREAMING_BIT := by
  refine ⟨by decide, by decide, by decide⟩

/-- C4 (amended): areEqualHandles returns true iff the two handles agree on
the sequence bits (the low 28 bits) AND on the STREAMING bit (bit 30); only
differences in LOOPING, INACTIVE and LOADING are ignored.  Two handles with
equal sequence bits that differ in the STREAMING bit are not matched. -/
theorem claim_C4_amended (a b : ℕ) :
    areEqualHandles a b = true ↔
      (seqOf a = seqOf b ∧ a.testBit 30 = b.testBit 30) := by
  unfold areEqualHandles seqOf
  rw [beq_iff_eq]
  have expand : ∀ h : ℕ, h &&& HANDLE_MASK =
      2 ^ 28 * (h / 2 ^ 28 &&& 4) + h % 2 ^ 28 := by
    intro h
    conv_lhs => rw [decompose28 h, HANDLE_MASK_eq]
    rw [high_low_land _ _ _ _ (mod28_lt h) (by norm_num),
      Nat.and_pow_two_sub_one_of_lt_two_pow (mod28_lt h)]
  have hbit : ∀ h : ℕ, h / 2 ^ 28 &&& 4 = (h.testBit 30).toNat * 4 := by
    intro h
    have h1 : h / 2 ^ 28 &&& 4 = ((h / 2 ^ 28).testBit 2).toNat * 4 := by
      simpa using Nat.and_two_pow (h / 2 ^ 28) 2
    have h2 : (h / 2 ^ 28).testBit 2 = h.testBit 30 := by
      rw [Nat.testBit_to_div_mod, Nat.testBit_to_div_mod, Nat.div_div_eq_div_mul]
      norm_num
    rw [h1, h2]
  rw [expand a, expand b, hbit a, hbit b]
  have ha := mod28_lt a
  have hb := mod28_lt b
  constructor
  · intro h
    cases hA : a.testBit 30 <;> cases hB : b.testBit 30 <;>
      rw [hA, hB] at h <;> simp at h ⊢ <;> omega
  · rintro ⟨h1, h2⟩
    rw [h1, h2]

/-! ## C8: the qsort comparator for the reactivation candidate sort
(audio.cc lines 151-163) -/

/-- truncation of a rational toward zero, as the C cast `(int)` applied to a
float value does: floor for nonnegative values, ceiling for negative ones -/
def truncToInt (q : ℚ) : ℤ := if 0 ≤ q then ⌊q⌋ else ⌈q⌉

/-- the qsort comparator `loopingImageSort` (audio.cc lines 151-158), applied
to the two images' scores: it returns `ip2->mScore - ip1->mScore` converted
to `int` -/
def loopingImageSortCmp (s1 s2 : ℚ) : ℤ := truncToInt (s2 - s1)

/-- Modelled from the spec: `dQsort` is the platform sort wrapper (its
implementation is not under src/); spec 4.5 reads: sort this candidate set by
descending score.  It is modelled as a comparator-driven stable sort — a
comparison sort can order elements only by the comparator's answers, and a
pair the comparator reports as equal (0) keeps its relative order. -/
def insertByCmp (cmp : α → α → ℤ) (x : α) : List α → List α
  | [] => [x]
  | y :: ys => if cmp x y ≤ 0 then x :: y :: ys else y :: insertByCmp cmp x ys

/-- the sort of a candidate list with a comparator, see `insertByCmp` -/
def dQsort (cmp : α → α → ℤ) (l : List α) : List α := l.foldr (insertByCmp cmp) []

/-! ## Data model (audio.cc lines 38-124) -/

/-- the fields of `Audio::Description` the verified operations read; cone
and environment parameters are carried by the source but never read by the
operations the claims are about -/
structure Description where
  mVolume : ℚ
  mIsLooping : Bool
  mIsStreaming : Bool
  mIs3D : Bool
  mType : ℕ
  mReferenceDistance : ℚ
  mMaxDistance : ℚ
deriving DecidableEq

/-- `LoopingImage` (audio.cc lines 38-65); position, direction and pitch are
playback-only fields no verified claim reads, and the buffer is an abstract
resource reference (`none` = NULL) -/
structure LoopingImage where
  mHandle : ℕ
  mBuffer : Option ℕ
  mDescription : Description
  mScore : ℚ
  mCullTime : ℕ
deriving DecidableEq

/-- the `AudioStreamSource` bookkeeping audio.cc manipulates; `hasStream`
records whether the decode stream is currently held (`initStream` sets it,
`freeStream` clears it) -/
structure StreamingSource where
  mHandle : ℕ
  mDescription : Description
  mScore : ℚ
  mCullTime : ℕ
  hasStream : Bool
deriving DecidableEq

/-- the global mutable state of the voice manager (audio.cc lines 68-124):
the per-slot arrays, the looping and streaming lists, the channel type
volumes and the handle counter.  The inactive/culled lists hold pointers to
images in C++; an image's key (`keyOf mHandle`) never changes, so they are
modelled as lists of keys.  `mSampleEnvironment` (an opaque pointer no claim
reads) and the free list `mLoopingFreeList` (freed images are `clear()`ed
before pooling, so reuse is unobservable) are omitted. -/
structure AlxState where
  mNumSources : ℕ
  mHandle : List ℕ
  mBuffer : List (Option ℕ)
  mScore : List ℚ
  mSourceVolume : List ℚ
  mType : List ℕ
  mAudioTypeVolume : List ℚ
  mLoopingList : List LoopingImage
  mLoopingInactiveList : List ℕ
  mLoopingCulledList : List ℕ
  mStreamingList : List StreamingSource
  mStreamingInactiveList : List ℕ
  mStreamingCulledList : List ℕ
  mLastHandle : ℕ
deriving DecidableEq

/-- mutate the first list element satisfying `p`: the effect of writing
through the iterator `findImage` returned -/
def modifyFirst (p : α → Bool) (f : α → α) : List α → List α
  | [] => []
  | x :: xs => if p x then f x :: xs else x :: modifyFirst p f xs

/-- remove the first list element satisfying `p`.  `Vector::erase_fast`
(core/tVector.h, not among the staged sources) overwrites the erased slot
with the last element and pops: the survivors and their multiplicities equal
first-occurrence removal, only the order of the survivors differs, and no
verified claim depends on that order. -/
def eraseFirst (p : α → Bool) : List α → List α
  | [] => []
  | x :: xs => if p x then xs else x :: eraseFirst p xs

def eraseKey (k : ℕ) (l : List ℕ) : List ℕ := eraseFirst (· == k) l

/-- `LoopingList::findImage` (audio.cc lines 136-149) on the master list: the
queried handle must carry the LOOPING bit, matching is by areEqualHandles -/
def loopingFind (l : List LoopingImage) (handle : ℕ) : Option LoopingImage :=
  if handle &&& LOOPING_BIT != 0 then
    l.find? (fun im => areEqualHandles im.mHandle handle)
  else none

/-- `StreamingList::findImage` (audio.cc lines 168-181) on the master list -/
def streamingFind (l : List StreamingSource) (handle : ℕ) : Option StreamingSource :=
  if handle &&& STREAMING_BIT != 0 then
    l.find? (fun s => areEqualHandles s.mHandle handle)
  else none

/-- findImage on a membership list modelled by keys -/
def loopingKeyMem (keys : List ℕ) (handle : ℕ) : Bool :=
  (handle &&& LOOPING_BIT != 0) && keys.contains (keyOf handle)

def streamingKeyMem (keys : List ℕ) (handle : ℕ) : Bool :=
  (handle &&& STREAMING_BIT != 0) && keys.contains (keyOf handle)

def slotHandle (st : AlxState) (i : ℕ) : ℕ := st.mHandle.getD i NULL_AUDIOHANDLE

def slotScore (st : AlxState) (i : ℕ) : ℚ := st.mScore.getD i 0

/-- `findFreeSource` (audio.cc lines 235-244) -/
def findFreeSource (st : AlxState) : Option ℕ :=
  (List.range st.mNumSources).find? (fun i => slotHandle st i == NULL_AUDIOHANDLE)

/-- `alxFindIndex` (audio.cc lines 340-346); `none` stands for the
MAX_AUDIOSOURCES sentinel -/
def alxFindIndex (st : AlxState) (handle : ℕ) : Option ℕ :=
  (List.range st.mNumSources).find? (fun i =>
    slotHandle st i != NULL_AUDIOHANDLE && areEqualHandles (slotHandle st i) handle)

/-- `getNewHandle` (audio.cc lines 219-226): increment, confine to the
non-role-flag bits, skip the null value -/
def nextHandleVal (last : ℕ) : ℕ :=
  if (last + 1) &&& HANDLE_MASK = NULL_AUDIOHANDLE then
    ((last + 1) &&& HANDLE_MASK) + 1
  else (last + 1) &&& HANDLE_MASK

def getNewHandle (st : AlxState) : ℕ × AlxState :=
  (nextHandleVal st.mLastHandle, { st with mLastHandle := nextHandleVal st.mLastHandle })

/-! ## Eviction (audio.cc lines 246-337) -/

/-- the scan of `cullSource` (audio.cc lines 254-263): running minimum
strictly below the starting volume; ties keep the first index found -/
def cullScanAux (f : ℕ → ℚ) (volume : ℚ) (n : ℕ) : ℚ × Option ℕ :=
  (List.range n).foldl
    (fun acc i => if f i < acc.1 then (f i, some i) else acc)
    (volume, (none : Option ℕ))

def cullScan (st : AlxState) (volume : ℚ) : Option ℕ :=
  (cullScanAux (slotScore st) volume st.mNumSources).2

/-- the demotion step of `cullSource` (audio.cc lines 268-309) for the
culled slot's handle `h`: a looping image with the slot's INACTIVE bit set
moves to the inactive list, otherwise it gets its INACTIVE bit and cull
timestamp and moves to the culled list; a streaming source likewise, also
releasing its stream (`freeStream`) -/
def cullDemote (st : AlxState) (h : ℕ) (now : ℕ) : AlxState :=
  let st1 :=
    if (loopingFind st.mLoopingList h).isSome then
      if h &&& INACTIVE_BIT != 0 then
        { st with mLoopingInactiveList := st.mLoopingInactiveList ++ [keyOf h] }
      else
        { st with
          mLoopingList := modifyFirst (fun im => areEqualHandles im.mHandle h)
            (fun im => { im with
              mHandle := im.mHandle ||| INACTIVE_BIT, mCullTime := now })
            st.mLoopingList,
          mLoopingCulledList := st.mLoopingCulledList ++ [keyOf h] }
    else st
  if (streamingFind st1.mStreamingList h).isSome then
    if h &&& INACTIVE_BIT != 0 then
      { st1 with mStreamingInactiveList := st1.mStreamingInactiveList ++ [keyOf h] }
    else
      { st1 with
        mStreamingList := modifyFirst (fun s => areEqualHandles s.mHandle h)
          (fun s => { s with
            mHandle := s.mHandle ||| INACTIVE_BIT,
            hasStream := false, mCullTime := now })
          st1.mStreamingList,
        mStreamingCulledList := st1.mStreamingCulledList ++ [keyOf h] }
  else st1

/-- `cullSource` (audio.cc lines 250-317).  `now` stands for
`Platform::getRealMilliseconds()`.  On failure (`none`) the state is
unchanged; on success the returned state demotes the culled voice's looping
or streaming image and frees the slot (handle to NULL, buffer dropped). -/
def cullSource (st : AlxState) (volume : ℚ) (now : ℕ) : Option (ℕ × AlxState) :=
  match cullScan st volume with
  | none => none
  | some best =>
    let st2 := cullDemote st (slotHandle st best) now
    some (best, { st2 with
      mHandle := st2.mHandle.set best NULL_AUDIOHANDLE,
      mBuffer := st2.mBuffer.set best none })

/-- `approximate3DVolume` (audio.cc lines 323-337); the distance from the
listener to the requested position is an input (the listener pose lives in
OpenAL, an external collaborator) -/
def approximate3DVolume (desc : Description) (distance : ℚ) : ℚ :=
  if desc.mMaxDistance ≤ distance then 0
  else if distance < desc.mReferenceDistance then 1
  else 1 - (distance - desc.mReferenceDistance) /
    (desc.mMaxDistance - desc.mReferenceDistance)

/-! ## Scoring (audio.cc lines 1900-2007) -/

/-- the external data `alxUpdateScores` reads back from OpenAL: per 3D voice
slot its distance to the listener plus its reference/max distances (`none`
marks a 2D, listener-relative voice), and per looping/streaming image (by
key) the distance from the listener to its cached position -/
structure ScoreEnv where
  slot3D : ℕ → Option (ℚ × ℚ × ℚ)
  loopDist : ℕ → ℚ
  streamDist : ℕ → ℚ

/-- the per-slot score recomputation (audio.cc lines 1906-1945) -/
def slotNewScore (st : AlxState) (env : ScoreEnv) (i : ℕ) : ℚ :=
  if slotHandle st i == NULL_AUDIOHANDLE then 0
  else
    let volume := st.mSourceVolume.getD i 0 *
      st.mAudioTypeVolume.getD (st.mType.getD i 0) 0
    match env.slot3D i with
    | none => volume
    | some (dist, dmin, dmax) =>
      if dmax ≤ dist then 0
      else if dmin < dist then volume * ((dmax - dist) / (dmax - dmin))
      else volume

/-- the score update for one looping image (audio.cc lines 1953-1978) -/
def imageNewScore (typeVols : List ℚ) (dist : ℚ) (now : ℕ)
    (im : LoopingImage) : LoopingImage :=
  if im.mHandle &&& INACTIVE_BIT == 0 then im
  else if subU32 now im.mCullTime < MIN_UNCULL_PERIOD then im
  else
    let s := im.mDescription.mVolume
    let s :=
      if im.mDescription.mIs3D then
        if im.mDescription.mMaxDistance ≤ dist then 0
        else if im.mDescription.mReferenceDistance < dist then
          s * ((im.mDescription.mMaxDistance - dist) /
            (im.mDescription.mMaxDistance - im.mDescription.mReferenceDistance))
        else s
      else s
    { im with mScore := s * typeVols.getD im.mDescription.mType 0 }

/-- the score update for one streaming source (audio.cc lines 1981-2006) -/
def streamNewScore (typeVols : List ℚ) (dist : ℚ) (now : ℕ)
    (s0 : StreamingSource) : StreamingSource :=
  if s0.mHandle &&& INACTIVE_BIT == 0 then s0
  else if subU32 now s0.mCullTime < MIN_UNCULL_PERIOD then s0
  else
    let s := s0.mDescription.mVolume
    let s :=
      if s0.mDescription.mIs3D then
        if s0.mDescription.mMaxDistance ≤ dist then 0
        else if s0.mDescription.mReferenceDistance < dist then
          s * ((s0.mDescription.mMaxDistance - dist) /
            (s0.mDescription.mMaxDistance - s0.mDescription.mReferenceDistance))
        else s
      else s
    { s0 with mScore := s * typeVols.getD s0.mDescription.mType 0 }

/-- `alxUpdateScores` (audio.cc lines 1900-2007) -/
def alxUpdateScores (st : AlxState) (env : ScoreEnv) (sourcesOnly : Bool)
    (now : ℕ) : AlxState :=
  let newScores := (List.range st.mNumSources).map (slotNewScore st env)
  let stS := { st with mScore := newScores }
  if sourcesOnly then stS
  else
    let newLooping := stS.mLoopingList.map
      (fun im => imageNewScore stS.mAudioTypeVolume
        (env.loopDist (keyOf im.mHandle)) now im)
    let stL := { stS with mLoopingList := newLooping }
    let newStreaming := stL.mStreamingList.map
      (fun s => streamNewScore stL.mAudioTypeVolume
        (env.streamDist (keyOf s.mHandle)) now s)
    { stL with mStreamingList := newStreaming }

/-! ## Creation (audio.cc lines 604-829) -/

/-- the external collaborators of `alxCreateSource`: the OpenAL context, the
filename validity check, the decoded-resource cache (`AudioBuffer::find`),
the transform argument (its presence, and the listener distance derived from
it), the streaming factory, and the OpenAL state `alxUpdateScores` reads -/
structure CreateEnv where
  hasContext : Bool
  filenameOk : Bool
  bufferFound : Option ℕ
  hasTransform : Bool
  listenerDistance : ℚ
  streamOk : Bool
  score : ScoreEnv

/-- the volume alxCreateSource computes before seeking a voice (audio.cc
lines 615-635): the description volume, attenuated for a positioned 3D
request by approximate3DVolume, then scaled by the channel type volume -/
def createVolume (st : AlxState) (env : CreateEnv) (desc : Description) : ℚ :=
  (desc.mVolume *
    (if env.hasTransform && desc.mIs3D then
      approximate3DVolume desc env.listenerDistance else 1)) *
    st.mAudioTypeVolume.getD desc.mType 0

/-- `alxCreateSource` (audio.cc lines 604-829): the new state and the
returned AUDIOHANDLE (`NULL_AUDIOHANDLE` = rejected).  The streaming
admission block at lines 694-728 is unreachable (the branch above it returns
on every path), so a voiceless streaming request returns NULL. -/
def alxCreateSource (st : AlxState) (env : CreateEnv) (desc? : Option Description)
    (now : ℕ) : AlxState × ℕ :=
  if !env.hasContext then (st, NULL_AUDIOHANDLE)
  else
    match desc? with
    | none => (st, NULL_AUDIOHANDLE)
    | some desc =>
      if !env.filenameOk then (st, NULL_AUDIOHANDLE)
      else
        if st.mAudioTypeVolume.length ≤ desc.mType then (st, NULL_AUDIOHANDLE)
        else if !desc.mIsLooping && !desc.mIsStreaming &&
            st.mAudioTypeVolume.getD desc.mType 0 = 0 then (st, NULL_AUDIOHANDLE)
        else
          let volume := createVolume st env desc
          if !desc.mIsLooping && !desc.mIsStreaming && volume ≤ MIN_GAIN then
            (st, NULL_AUDIOHANDLE)
          else
            let acquire : AlxState × Option ℕ :=
              if MIN_GAIN < volume then
                match findFreeSource st with
                | some i => (st, some i)
                | none =>
                  let stU := alxUpdateScores st env.score true now
                  match cullSource stU volume now with
                  | some (i, stC) => (stC, some i)
                  | none => (stU, none)
              else (st, none)
            match acquire with
            | (stA, none) =>
              if desc.mIsLooping && !desc.mIsStreaming then
                match env.bufferFound with
                | none => (stA, NULL_AUDIOHANDLE)
                | some buf =>
                  let (h0, stH) := getNewHandle stA
                  let h := h0 ||| LOOPING_BIT ||| INACTIVE_BIT
                  let image : LoopingImage :=
                    { mHandle := h, mBuffer := some buf, mDescription := desc,
                      mScore := volume, mCullTime := 0 }
                  ({ stH with
                      mLoopingList := stH.mLoopingList ++ [image],
                      mLoopingInactiveList := stH.mLoopingInactiveList ++ [keyOf h] },
                    h &&& RETURN_MASK)
              else (stA, NULL_AUDIOHANDLE)
            | (stA, some index) =>
              if !desc.mIsStreaming && env.bufferFound = none then
                (stA, NULL_AUDIOHANDLE)
              else
                let (h0, stH) := getNewHandle stA
                let hBase := h0 ||| INACTIVE_BIT
                let stS := { stH with
                  mHandle := stH.mHandle.set index hBase,
                  mType := stH.mType.set index desc.mType,
                  mBuffer := if desc.mIsStreaming then stH.mBuffer
                    else stH.mBuffer.set index env.bufferFound,
                  mScore := stH.mScore.set index volume,
                  mSourceVolume := stH.mSourceVolume.set index desc.mVolume }
                if desc.mIsLooping && !desc.mIsStreaming then
                  let h := hBase ||| LOOPING_BIT
                  let image : LoopingImage :=
                    { mHandle := h, mBuffer := env.bufferFound, mDescription := desc,
                      mScore := volume, mCullTime := 0 }
                  ({ stS with
                      mHandle := stS.mHandle.set index h,
                      mLoopingList := stS.mLoopingList ++ [image] },
                    h &&& RETURN_MASK)
                else if desc.mIsStreaming then
                  let h := hBase ||| STREAMING_BIT ||| LOADING_BIT
                  if env.streamOk then
                    let source : StreamingSource :=
                      { mHandle := h, mDescription := desc, mScore := volume,
                        mCullTime := 0, hasStream := true }
                    ({ stS with
                        mHandle := stS.mHandle.set index h,
                        mStreamingList := stS.mStreamingList ++ [source] },
                      h &&& RETURN_MASK)
                  else
                    ({ stS with
                        mHandle := stS.mHandle.set index NULL_AUDIOHANDLE,
                        mBuffer := stS.mBuffer.set index none },
                      NULL_AUDIOHANDLE)
                else (stS, hBase &&& RETURN_MASK)

/-! ## Play, reactivation, stop, garbage collection
(audio.cc lines 853-1012, 1650-1841, 1844-1893) -/

/-- the body of `alxPlay` when the handle occupies a voice slot (audio.cc
lines 857-877 plus the fallthrough `return(handle)` at line 919).  The
recursive `alxPlay(mHandle[index])` calls inside the two update passes
always land here, because the slot was assigned just before. -/
def playActivate (st : AlxState) (index handle : ℕ) : AlxState :=
  let st1 := { st with
    mHandle := st.mHandle.set index (slotHandle st index &&& RETURN_MASK) }
  let newLooping :=
    if handle &&& LOOPING_BIT != 0 then
      modifyFirst (fun im => areEqualHandles im.mHandle handle)
        (fun im => { im with mHandle := im.mHandle &&& RETURN_MASK })
        st1.mLoopingList
    else st1.mLoopingList
  let st2 := { st1 with mLoopingList := newLooping }
  let newStreaming :=
    if handle &&& STREAMING_BIT != 0 then
      modifyFirst (fun s => areEqualHandles s.mHandle handle)
        (fun s => { s with mHandle := s.mHandle &&& RETURN_MASK })
        st2.mStreamingList
    else st2.mStreamingList
  { st2 with mStreamingList := newStreaming }

def alxPlayIndexed (st : AlxState) (index handle : ℕ) : AlxState × ℕ :=
  if slotHandle st index &&& INACTIVE_BIT != 0 then
    (playActivate st index handle, handle)
  else (st, handle)

/-- the image with key `k` in the master looping list (the dereference of a
stored pointer) -/
def imageOfKey (st : AlxState) (k : ℕ) : Option LoopingImage :=
  st.mLoopingList.find? (fun im => keyOf im.mHandle == k)

def streamOfKey (st : AlxState) (k : ℕ) : Option StreamingSource :=
  st.mStreamingList.find? (fun s => keyOf s.mHandle == k)

/-- the candidate filter of `alxLoopingUpdate` (audio.cc lines 1667-1676):
keep culled images scoring above MIN_UNCULL_GAIN whose time since cull is at
least MIN_UNCULL_PERIOD -/
def loopingCandidates (st : AlxState) (now : ℕ) : List ℕ :=
  st.mLoopingCulledList.filter (fun k =>
    match imageOfKey st k with
    | none => false
    | some im =>
      !(im.mScore ≤ MIN_UNCULL_GAIN) && !(subU32 now im.mCullTime < MIN_UNCULL_PERIOD))

/-- the candidate sort (audio.cc lines 1683-1684) through `dQsort` with
`loopingImageSort` on the images' scores -/
def sortLoopingCandidates (st : AlxState) (cands : List ℕ) : List ℕ :=
  if 1 < cands.length then
    dQsort (fun k1 k2 =>
      loopingImageSortCmp ((imageOfKey st k1).elim 0 LoopingImage.mScore)
        ((imageOfKey st k2).elim 0 LoopingImage.mScore)) cands
  else cands

/-- take the image's key off the looping culled list (audio.cc line 1712) -/
def leaveLoopingCulled (st : AlxState) (k : ℕ) : AlxState :=
  { st with mLoopingCulledList := eraseKey k st.mLoopingCulledList }

/-- restore voice slot `index` from the promoted looping image (audio.cc
lines 1719-1730) -/
def promoteWrite (st : AlxState) (index : ℕ) (im : LoopingImage) : AlxState :=
  { st with
    mHandle := st.mHandle.set index im.mHandle,
    mBuffer := st.mBuffer.set index im.mBuffer,
    mScore := st.mScore.set index im.mScore,
    mSourceVolume := st.mSourceVolume.set index im.mDescription.mVolume,
    mType := st.mType.set index im.mDescription.mType }

/-- promotion of the culled looping image `k` into voice slot `index`
(audio.cc lines 1716-1738): leave the culled list, restore the slot state
from the image, then `alxPlay(mHandle[index])` clears the INACTIVE bits -/
def loopingPromote (st : AlxState) (index k : ℕ) : AlxState :=
  match imageOfKey st k with
  | none => st
  | some im =>
    (alxPlayIndexed (promoteWrite (leaveLoopingCulled st k) index im)
      index im.mHandle).1

/-- delete looping image `k` from the culled and master lists (audio.cc
lines 1698-1708, the buffer-gone removal) -/
def dropLoopingImage (st : AlxState) (k : ℕ) : AlxState :=
  { st with
    mLoopingCulledList := eraseKey k st.mLoopingCulledList,
    mLoopingList := eraseFirst
      (fun im2 => keyOf im2.mHandle == k) st.mLoopingList }

/-- the candidate loop of `alxLoopingUpdate` (audio.cc lines 1686-1739): per
candidate take a free voice, or cull one below the candidate's score; a cull
failure stops the pass; a candidate whose buffer is gone is dropped from the
culled and master lists -/
def loopingPromoteLoop (st : AlxState) (now : ℕ) : List ℕ → AlxState
  | [] => st
  | k :: rest =>
    match imageOfKey st k with
    | none => loopingPromoteLoop st now rest
    | some im =>
      match findFreeSource st with
      | some index => loopingPromoteLoop (loopingPromote st index k) now rest
      | none =>
        match cullSource st im.mScore now with
        | none => st
        | some (index, stC) =>
          if im.mBuffer.isNone then
            loopingPromoteLoop (dropLoopingImage stC k) now rest
          else loopingPromoteLoop (loopingPromote stC index k) now rest

/-- `alxLoopingUpdate` (audio.cc lines 1650-1741) -/
def alxLoopingUpdate (st : AlxState) (now : ℕ) : AlxState :=
  if st.mLoopingCulledList.isEmpty then st
  else if (loopingCandidates st now).isEmpty then st
  else loopingPromoteLoop st now
    (sortLoopingCandidates st (loopingCandidates st now))

/-- the candidate filter of `alxStreamingUpdate` (audio.cc lines 1770-1778) -/
def streamingCandidates (st : AlxState) (now : ℕ) : List ℕ :=
  st.mStreamingCulledList.filter (fun k =>
    match streamOfKey st k with
    | none => false
    | some s =>
      !(s.mScore ≤ MIN_UNCULL_GAIN) && !(subU32 now s.mCullTime < MIN_UNCULL_PERIOD))

/-- the candidate sort (audio.cc lines 1785-1786) through `dQsort` with
`streamingSourceSort`, the same truncating comparator on scores -/
def sortStreamingCandidates (st : AlxState) (cands : List ℕ) : List ℕ :=
  if 1 < cands.length then
    dQsort (fun k1 k2 =>
      loopingImageSortCmp ((streamOfKey st k1).elim 0 StreamingSource.mScore)
        ((streamOfKey st k2).elim 0 StreamingSource.mScore)) cands
  else cands

/-- take the source's key off the streaming culled list and re-acquire its
stream (`initStream`, audio.cc lines 1820-1825) -/
def leaveStreamingCulled (st : AlxState) (k : ℕ) : AlxState :=
  { st with
    mStreamingCulledList := eraseKey k st.mStreamingCulledList,
    mStreamingList := modifyFirst (fun s2 => keyOf s2.mHandle == k)
      (fun s2 => { s2 with hasStream := true }) st.mStreamingList }

/-- restore voice slot `index` from the promoted streaming source (audio.cc
lines 1827-1835; streams carry no decoded buffer) -/
def streamWrite (st : AlxState) (index : ℕ) (s : StreamingSource) : AlxState :=
  { st with
    mHandle := st.mHandle.set index s.mHandle,
    mScore := st.mScore.set index s.mScore,
    mSourceVolume := st.mSourceVolume.set index s.mDescription.mVolume,
    mType := st.mType.set index s.mDescription.mType }

/-- delete streaming source `k` from the culled and master lists (audio.cc
lines 1797-1807, the removal block left live when the buffer check was
commented out) -/
def dropStreamingSource (st : AlxState) (k : ℕ) : AlxState :=
  { st with
    mStreamingCulledList := eraseKey k st.mStreamingCulledList,
    mStreamingList := eraseFirst
      (fun s2 => keyOf s2.mHandle == k) st.mStreamingList }

/-- promotion of the culled streaming source `k` into slot `index` (audio.cc
lines 1817-1838): leave the culled list, `alxSourcePlay` re-acquires the
stream (`initStream`), the slot state is restored (no buffer for streams),
then `alxPlay(mHandle[index])` clears the INACTIVE bits -/
def streamingPromote (st : AlxState) (index k : ℕ) : AlxState :=
  match streamOfKey st k with
  | none => st
  | some s =>
    (alxPlayIndexed (streamWrite (leaveStreamingCulled st k) index s)
      index s.mHandle).1

/-- the candidate loop of `alxStreamingUpdate` (audio.cc lines 1788-1839).
In the no-free-voice branch the buffer check is commented out but its
removal block is not: after a successful cull the candidate is deleted from
the streaming lists and skipped (`continue`) instead of promoted. -/
def streamingPromoteLoop (st : AlxState) (now : ℕ) : List ℕ → AlxState
  | [] => st
  | k :: rest =>
    match streamOfKey st k with
    | none => streamingPromoteLoop st now rest
    | some s =>
      match findFreeSource st with
      | some index => streamingPromoteLoop (streamingPromote st index k) now rest
      | none =>
        match cullSource st s.mScore now with
        | none => st
        | some (_, stC) =>
          streamingPromoteLoop (dropStreamingSource stC k) now rest

/-- `alxStreamingUpdate` (audio.cc lines 1743-1841); the `updateBuffers` pass
over active streamers services OpenAL buffer queues and changes no modelled
field -/
def alxStreamingUpdate (st : AlxState) (now : ℕ) : AlxState :=
  if st.mStreamingCulledList.isEmpty then st
  else if (streamingCandidates st now).isEmpty then st
  else streamingPromoteLoop st now
    (sortStreamingCandidates st (streamingCandidates st now))

/-- `alxPlay` (audio.cc lines 853-920).  The streaming blocks at lines
899-916 are unreachable: the looping branch above them returns on all
paths, so for a voiceless handle only the looping lists are consulted. -/
def alxPlay (st : AlxState) (handle : ℕ) (now : ℕ) : AlxState × ℕ :=
  match alxFindIndex st handle with
  | some index => alxPlayIndexed st index handle
  | none =>
    if loopingKeyMem st.mLoopingInactiveList handle then
      let st1 := { st with
        mLoopingCulledList := st.mLoopingCulledList ++ [keyOf handle],
        mLoopingInactiveList := eraseKey (keyOf handle) st.mLoopingInactiveList }
      (alxLoopingUpdate st1 now, handle)
    else if loopingKeyMem st.mLoopingCulledList handle then
      (alxLoopingUpdate st now, handle)
    else (st, NULL_AUDIOHANDLE)

/-- release voice slot `i`: null handle, drop the buffer (audio.cc lines
948-950) -/
def clearSlot (st : AlxState) (i : ℕ) : AlxState :=
  { st with
    mHandle := st.mHandle.set i NULL_AUDIOHANDLE,
    mBuffer := st.mBuffer.set i none }

/-- first block of `alxStop` (audio.cc lines 938-951): free the voice slot
if one holds the handle -/
def stopVoice (st : AlxState) (handle : ℕ) : AlxState :=
  match alxFindIndex st handle with
  | some index => clearSlot st index
  | none => st

/-- the inner conditional of `alxStop`'s looping block (audio.cc lines
957-972): drop the image's key from the inactive or the culled list when its
INACTIVE bit is set -/
def removeLoopingMembership (st : AlxState) (handle : ℕ)
    (im : LoopingImage) : AlxState :=
  if im.mHandle &&& INACTIVE_BIT != 0 then
    if loopingKeyMem st.mLoopingInactiveList handle then
      { st with mLoopingInactiveList :=
          eraseKey (keyOf handle) st.mLoopingInactiveList }
    else
      { st with mLoopingCulledList :=
          eraseKey (keyOf handle) st.mLoopingCulledList }
  else st

/-- second block of `alxStop` (audio.cc lines 953-981): tear down the looping
image (back to the free pool), removing it from whichever membership list its
INACTIVE bit points at -/
def stopLooping (st : AlxState) (handle : ℕ) : AlxState :=
  match loopingFind st.mLoopingList handle with
  | none => st
  | some im =>
    let st1a := removeLoopingMembership st handle im
    { st1a with mLoopingList :=
        eraseFirst (fun im2 => areEqualHandles im2.mHandle handle) st1a.mLoopingList }

/-- the inner conditional of `alxStop`'s streaming block (audio.cc lines
987-1002) -/
def removeStreamingMembership (st : AlxState) (handle : ℕ)
    (s : StreamingSource) : AlxState :=
  if s.mHandle &&& INACTIVE_BIT != 0 then
    if streamingKeyMem st.mStreamingInactiveList handle then
      { st with mStreamingInactiveList :=
          eraseKey (keyOf handle) st.mStreamingInactiveList }
    else
      { st with mStreamingCulledList :=
          eraseKey (keyOf handle) st.mStreamingCulledList }
  else st

/-- third block of `alxStop` (audio.cc lines 983-1011): `freeStream`, delete
the streaming source and remove it from its membership list -/
def stopStreaming (st : AlxState) (handle : ℕ) : AlxState :=
  match streamingFind st.mStreamingList handle with
  | none => st
  | some s =>
    let st2a := removeStreamingMembership st handle s
    { st2a with mStreamingList :=
        eraseFirst (fun s2 => areEqualHandles s2.mHandle handle) st2a.mStreamingList }

/-- `alxStop` (audio.cc lines 936-1012): the three blocks in sequence -/
def alxStop (st : AlxState) (handle : ℕ) : AlxState :=
  stopStreaming (stopLooping (stopVoice st handle) handle) handle

/-- one slot step of `alxCloseHandles` (audio.cc lines 1846-1892);
`playing i` answers the external AL_SOURCE_STATE == AL_PLAYING query for
slot i.  A non-playing non-loading slot is reaped; a voice-backed looping
image with the INACTIVE bit clear is demoted to the culled list first. -/
def closeHandleSlot (playing : ℕ → Bool) (st : AlxState) (i : ℕ) : AlxState :=
  let h := slotHandle st i
  if h &&& LOADING_BIT != 0 then st
  else if h = NULL_AUDIOHANDLE then st
  else if playing i then st
  else
    let st1 :=
      if h &&& INACTIVE_BIT == 0 then
        match loopingFind st.mLoopingList h with
        | some im =>
          if im.mHandle &&& INACTIVE_BIT == 0 then
            { st with
              mLoopingCulledList := st.mLoopingCulledList ++ [keyOf h],
              mLoopingList := modifyFirst (fun im2 => areEqualHandles im2.mHandle h)
                (fun im2 => { im2 with mHandle := im2.mHandle ||| INACTIVE_BIT })
                st.mLoopingList,
              mHandle := st.mHandle.set i NULL_AUDIOHANDLE,
              mBuffer := st.mBuffer.set i none }
          else st
        | none => st
      else st
    { st1 with
      mHandle := st1.mHandle.set i NULL_AUDIOHANDLE,
      mBuffer := st1.mBuffer.set i none }

/-- `alxCloseHandles` (audio.cc lines 1844-1893) -/
def alxCloseHandles (st : AlxState) (playing : ℕ → Bool) : AlxState :=
  (List.range st.mNumSources).foldl (closeHandleSlot playing) st

/-- `alxUpdate` (audio.cc lines 2050-2063), the tick: `alxUpdateMaxDistance`
only rewrites AL gains (no modelled state), then handle garbage collection,
full rescoring, the looping reactivation pass and the streaming pass -/
def alxUpdate (st : AlxState) (playing : ℕ → Bool) (env : ScoreEnv)
    (now : ℕ) : AlxState :=
  alxStreamingUpdate
    (alxLoopingUpdate
      (alxUpdateScores (alxCloseHandles st playing) env false now) now) now

/-- the state right after `prepareContext` (audio.cc lines 2326-2337): `n`
voices granted, every handle NULL, all lists empty -/
def initState (n : ℕ) (typeVols : List ℚ) : AlxState where
  mNumSources := n
  mHandle := List.replicate n NULL_AUDIOHANDLE
  mBuffer := List.replicate n none
  mScore := List.replicate n 0
  mSourceVolume := List.replicate n 0
  mType := List.replicate n 0
  mAudioTypeVolume := typeVols
  mLoopingList := []
  mLoopingInactiveList := []
  mLoopingCulledList := []
  mStreamingList := []
  mStreamingInactiveList := []
  mStreamingCulledList := []
  mLastHandle := NULL_AUDIOHANDLE


/-- a trivial external scoring environment: every voice 2D, every cached
position at the listener -/
def zeroScoreEnv : ScoreEnv where
  slot3D := fun _ => none
  loopDist := fun _ => 0
  streamDist := fun _ => 0

/-- a benign create environment: context up, filename and buffer fine, no
transform -/
def witnessCreateEnv : CreateEnv where
  hasContext := true
  filenameOk := true
  bufferFound := some 1
  hasTransform := false
  listenerDistance := 0
  streamOk := false
  score := zeroScoreEnv

/-- a full-volume 2D looping description on channel 0 -/
def loopingDesc : Description where
  mVolume := 1
  mIsLooping := true
  mIsStreaming := false
  mIs3D := false
  mType := 0
  mReferenceDistance := 1
  mMaxDistance := 10

/-! ## The public operations as a transition system -/

/-- one public operation together with its external inputs -/
inductive AOp where
  | createOp (env : CreateEnv) (desc? : Option Description) (now : ℕ)
  | playOp (handle : ℕ) (now : ℕ)
  | stopOp (handle : ℕ)
  | cullOp (volume : ℚ) (now : ℕ)
  | tickOp (playing : ℕ → Bool) (env : ScoreEnv) (now : ℕ)

def applyOp (st : AlxState) : AOp → AlxState
  | .createOp env d now => (alxCreateSource st env d now).1
  | .playOp h now => (alxPlay st h now).1
  | .stopOp h => alxStop st h
  | .cullOp v now => ((cullSource st v now).map Prod.snd).getD st
  | .tickOp p env now => alxUpdate st p env now

/-- no record of the system carries a handle with this sequence number: the
handle allocator's design assumption for a freshly minted value (it can only
fail after 2^28 - 1 live allocations inside one wraparound window) -/
def freshSeq (st : AlxState) (s : ℕ) : Prop :=
  (∀ im ∈ st.mLoopingList, seqOf im.mHandle ≠ s) ∧
  (∀ str ∈ st.mStreamingList, seqOf str.mHandle ≠ s) ∧
  (∀ i < st.mNumSources, seqOf (slotHandle st i) ≠ s) ∧
  (∀ k ∈ st.mLoopingInactiveList, seqOf k ≠ s) ∧
  (∀ k ∈ st.mLoopingCulledList, seqOf k ≠ s) ∧
  (∀ k ∈ st.mStreamingInactiveList, seqOf k ≠ s) ∧
  (∀ k ∈ st.mStreamingCulledList, seqOf k ≠ s)

def opOK (st : AlxState) : AOp → Prop
  | .createOp _ _ _ => freshSeq st (nextHandleVal st.mLastHandle)
  | _ => True

/-- the states reachable from a fresh context through the public operations -/
inductive Reachable : AlxState → Prop
  | init (n : ℕ) (typeVols : List ℚ) (hn : n ≤ MAX_AUDIOSOURCES) :
      Reachable (initState n typeVols)
  | step (st : AlxState) (op : AOp) (h : Reachable st) (hok : opOK st op) :
      Reachable (applyOp st op)

/-- C8 (code bug): at the failing input — a candidate list holding scores
0.2 and 0.9 in that order — the comparator `(int)(s2 - s1)` truncates both
differences to 0, so the sort leaves the list in ascending order and the
claimed descending order does not hold. -/
theorem claim_C8_eval :
    loopingImageSortCmp (2 / 10) (9 / 10) = 0 ∧
    loopingImageSortCmp (9 / 10) (2 / 10) = 0 ∧
    dQsort loopingImageSortCmp [(2 : ℚ) / 10, 9 / 10] = [2 / 10, 9 / 10] ∧
    ¬ ((9 : ℚ) / 10 ≤ 2 / 10) := by
  have e1 : loopingImageSortCmp (2 / 10) (9 / 10) = 0 := by
    unfold loopingImageSortCmp truncToInt
    norm_num
  have e2 : loopingImageSortCmp (9 / 10) (2 / 10) = 0 := by
    unfold loopingImageSortCmp truncToInt
    norm_num
  refine ⟨e1, e2, ?_, by norm_num⟩
  simp [dQsort, insertByCmp, e1]


/-! ## C1: eviction frees the strict minimum below the requesting volume -/

theorem cullScanAux_spec (f : ℕ → ℚ) (v : ℚ) :
    ∀ n,
      ((cullScanAux f v n).2 = none →
        (cullScanAux f v n).1 = v ∧ ∀ j, j < n → v ≤ f j) ∧
      (∀ i0, (cullScanAux f v n).2 = some i0 →
        i0 < n ∧ f i0 = (cullScanAux f v n).1 ∧ (cullScanAux f v n).1 < v ∧
        ∀ j, j < n → (cullScanAux f v n).1 ≤ f j) := by
  intro n
  induction n with
  | zero =>
    constructor
    · intro _
      exact ⟨rfl, by omega⟩
    · intro i0 h
      simp [cullScanAux] at h
  | succ m ih =>
    have hstep : cullScanAux f v (m + 1) =
        if f m < (cullScanAux f v m).1 then (f m, some m) else cullScanAux f v m := by
      unfold cullScanAux
      rw [List.range_succ, List.foldl_append]
      simp
    by_cases hlt : f m < (cullScanAux f v m).1
    · rw [hstep, if_pos hlt]
      have hle : (cullScanAux f v m).1 ≤ v := by
        rcases hsc : (cullScanAux f v m).2 with _ | i1
        · exact le_of_eq (ih.1 hsc).1
        · exact le_of_lt (ih.2 i1 hsc).2.2.1
      constructor
      · intro hnone
        simp at hnone
      · intro i0 hsome
        simp at hsome
        subst hsome
        refine ⟨by omega, rfl, by linarith, ?_⟩
        intro j hj
        rcases Nat.lt_succ_iff_lt_or_eq.mp hj with hj2 | rfl
        · rcases hsc : (cullScanAux f v m).2 with _ | i1
          · have h1 := (ih.1 hsc).2 j hj2
            have h2 := (ih.1 hsc).1
            simp only []
            linarith
          · have h1 := (ih.2 i1 hsc).2.2.2 j hj2
            simp only []
            linarith
        · simp only []
          linarith
    · rw [hstep, if_neg hlt]
      push_neg at hlt
      constructor
      · intro hnone
        obtain ⟨h1, h2⟩ := ih.1 hnone
        refine ⟨h1, ?_⟩
        intro j hj
        rcases Nat.lt_succ_iff_lt_or_eq.mp hj with hj2 | rfl
        · exact h2 j hj2
        · rw [← h1]
          exact hlt
      · intro i0 hsome
        obtain ⟨h1, h2, h3, h4⟩ := ih.2 i0 hsome
        refine ⟨by omega, h2, h3, ?_⟩
        intro j hj
        rcases Nat.lt_succ_iff_lt_or_eq.mp hj with hj2 | rfl
        · exact h4 j hj2
        · exact hlt

theorem cullDemote_frame (st : AlxState) (h now : ℕ) :
    (cullDemote st h now).mNumSources = st.mNumSources ∧
    (cullDemote st h now).mHandle = st.mHandle ∧
    (cullDemote st h now).mBuffer = st.mBuffer ∧
    (cullDemote st h now).mScore = st.mScore ∧
    (cullDemote st h now).mSourceVolume = st.mSourceVolume ∧
    (cullDemote st h now).mType = st.mType ∧
    (cullDemote st h now).mAudioTypeVolume = st.mAudioTypeVolume ∧
    (cullDemote st h now).mLastHandle = st.mLastHandle := by
  unfold cullDemote
  dsimp only
  split_ifs <;> simp

theorem cullSource_spec (st : AlxState) (v : ℚ) (now : ℕ) :
    (cullSource st v now = none ↔ ∀ j, j < st.mNumSources → v ≤ slotScore st j) ∧
    (∀ best st2, cullSource st v now = some (best, st2) →
      best < st.mNumSources ∧ slotScore st best < v ∧
      (∀ j, j < st.mNumSources → slotScore st best ≤ slotScore st j) ∧
      st2.mHandle = st.mHandle.set best NULL_AUDIOHANDLE ∧
      st2.mBuffer = st.mBuffer.set best none ∧
      st2.mScore = st.mScore ∧ st2.mNumSources = st.mNumSources) := by
  have hspec := cullScanAux_spec (slotScore st) v st.mNumSources
  constructor
  · constructor
    · intro hnone
      unfold cullSource at hnone
      rcases hsc : cullScan st v with _ | best
      · exact (hspec.1 hsc).2
      · rw [hsc] at hnone
        simp at hnone
    · intro hall
      unfold cullSource
      rcases hsc : cullScan st v with _ | best
      · rfl
      · exfalso
        obtain ⟨h1, h2, h3, _⟩ := hspec.2 best hsc
        have h4 := hall best h1
        rw [h2] at h4
        linarith
  · intro best st2 hsome
    unfold cullSource at hsome
    rcases hsc : cullScan st v with _ | best1
    · rw [hsc] at hsome
      simp at hsome
    · rw [hsc] at hsome
      simp only [Option.some.injEq, Prod.mk.injEq] at hsome
      obtain ⟨hb, hst⟩ := hsome
      subst hb
      subst hst
      obtain ⟨h1, h2, h3, h4⟩ := hspec.2 best1 hsc
      obtain ⟨f1, f2, f3, f4, _, _, _, _⟩ :=
        cullDemote_frame st (slotHandle st best1) now
      refine ⟨h1, by rw [h2]; exact h3, ?_, ?_, ?_, ?_, ?_⟩
      · intro j hj
        rw [h2]
        exact h4 j hj
      · show (cullDemote st (slotHandle st best1) now).mHandle.set best1
          NULL_AUDIOHANDLE = st.mHandle.set best1 NULL_AUDIOHANDLE
        rw [f2]
      · show (cullDemote st (slotHandle st best1) now).mBuffer.set best1 none =
          st.mBuffer.set best1 none
        rw [f3]
      · exact f4
      · exact f1

/-- the sources-only score update leaves everything but the score array
unchanged -/
theorem alxUpdateScores_sourcesOnly (st : AlxState) (env : ScoreEnv) (now : ℕ) :
    alxUpdateScores st env true now =
      { st with mScore := (List.range st.mNumSources).map (slotNewScore st env) } := by
  unfold alxUpdateScores
  simp

/-- C1: when cullSource succeeds on a fully occupied pool, the slot it frees
holds a score strictly below the requesting volume v and minimal among all
voices (the freed slot's handle goes to NULL and its buffer is dropped); when
no voice scores strictly below v, cullSource fails, the state is unchanged,
and a non-looping/non-streaming creation request that reaches the eviction
path returns the null handle with every slot handle intact. -/
theorem claim_C1 (st : AlxState) (v : ℚ) (now : ℕ)
    (hfull : ∀ i, i < st.mNumSources → slotHandle st i ≠ NULL_AUDIOHANDLE) :
    (∀ best st2, cullSource st v now = some (best, st2) →
      best < st.mNumSources ∧
      slotHandle st best ≠ NULL_AUDIOHANDLE ∧
      slotScore st best < v ∧
      (∀ j, j < st.mNumSources → slotScore st best ≤ slotScore st j) ∧
      st2.mHandle = st.mHandle.set best NULL_AUDIOHANDLE ∧
      st2.mBuffer = st.mBuffer.set best none) ∧
    (cullSource st v now = none ↔ ∀ j, j < st.mNumSources → v ≤ slotScore st j) ∧
    (cullSource st v now = none → applyOp st (AOp.cullOp v now) = st) ∧
    (∀ env desc, desc.mIsLooping = false → desc.mIsStreaming = false →
      findFreeSource st = none →
      cullSource (alxUpdateScores st env.score true now)
        (createVolume st env desc) now = none →
      (alxCreateSource st env (some desc) now).2 = NULL_AUDIOHANDLE ∧
      (alxCreateSource st env (some desc) now).1.mHandle = st.mHandle) := by
  obtain ⟨hiff, hsome⟩ := cullSource_spec st v now
  refine ⟨?_, hiff, ?_, ?_⟩
  · intro best st2 h
    obtain ⟨h1, h2, h3, h4, h5, _, _⟩ := hsome best st2 h
    exact ⟨h1, hfull best h1, h2, h3, h4, h5⟩
  · intro hnone
    show (Option.map Prod.snd (cullSource st v now)).getD st = st
    rw [hnone]
    rfl
  · intro env desc hl hs hfree hcull
    unfold alxCreateSource
    by_cases hc : env.hasContext
    · by_cases hf : env.filenameOk
      · by_cases ht : st.mAudioTypeVolume.length ≤ desc.mType
        · simp [hc, hf, ht]
        · by_cases hm : st.mAudioTypeVolume.getD desc.mType 0 = 0
          · rw [List.getD_eq_getElem?_getD] at hm
            simp [hc, hf, ht, hl, hs, hm]
          · rw [List.getD_eq_getElem?_getD] at hm
            by_cases hv : createVolume st env desc ≤ MIN_GAIN
            · simp [hc, hf, ht, hl, hs, hm, hv]
            · rw [alxUpdateScores_sourcesOnly] at hcull
              refine ⟨?_, ?_⟩ <;>
                simp [hc, hf, ht, hl, hs, hm, hv, hfree, hcull, not_le.mp hv,
                  alxUpdateScores_sourcesOnly]
      · simp [hc, hf]
    · simp [hc]

/-- a fully occupied concrete pool for the C1 witness: two voices with
scores 1/2 and 1/4 -/
def cullWitnessState : AlxState where
  mNumSources := 2
  mHandle := [1, 2]
  mBuffer := [some 1, some 2]
  mScore := [1 / 2, 1 / 4]
  mSourceVolume := [1 / 2, 1 / 4]
  mType := [0, 0]
  mAudioTypeVolume := [1]
  mLoopingList := []
  mLoopingInactiveList := []
  mLoopingCulledList := []
  mStreamingList := []
  mStreamingInactiveList := []
  mStreamingCulledList := []
  mLastHandle := 2

/-- C1 witness at the concrete occupied pool and requesting volume 1 -/
theorem claim_C1_witness :
    cullSource cullWitnessState 1 0 = none ↔
      ∀ j, j < cullWitnessState.mNumSources → 1 ≤ slotScore cullWitnessState j :=
  (claim_C1 cullWitnessState 1 0 (by decide)).2.1

/-- C7: alxCreateSource returns the null handle, with the state unchanged,
whenever the description is invalid (NULL), the filename is invalid, the
channel type is out of range, the channel type volume is zero and the source
is neither looping nor streaming, or the computed volume (source volume
scaled by 3D attenuation and channel volume) is at or below MIN_GAIN for a
non-looping/non-streaming source. -/
theorem claim_C7 (st : AlxState) (env : CreateEnv) (now : ℕ) :
    (alxCreateSource st env none now = (st, NULL_AUDIOHANDLE)) ∧
    (∀ desc, env.filenameOk = false →
      alxCreateSource st env (some desc) now = (st, NULL_AUDIOHANDLE)) ∧
    (∀ desc, st.mAudioTypeVolume.length ≤ desc.mType →
      alxCreateSource st env (some desc) now = (st, NULL_AUDIOHANDLE)) ∧
    (∀ desc, desc.mIsLooping = false → desc.mIsStreaming = false →
      st.mAudioTypeVolume.getD desc.mType 0 = 0 →
      alxCreateSource st env (some desc) now = (st, NULL_AUDIOHANDLE)) ∧
    (∀ desc, desc.mIsLooping = false → desc.mIsStreaming = false →
      createVolume st env desc ≤ MIN_GAIN →
      alxCreateSource st env (some desc) now = (st, NULL_AUDIOHANDLE)) := by
  refine ⟨?_, ?_, ?_, ?_, ?_⟩
  · unfold alxCreateSource
    by_cases hc : env.hasContext <;> simp [hc]
  · intro desc hf
    unfold alxCreateSource
    by_cases hc : env.hasContext <;> simp [hc, hf]
  · intro desc ht
    unfold alxCreateSource
    by_cases hc : env.hasContext
    · by_cases hf : env.filenameOk
      · simp [hc, hf, ht]
      · simp [hc, hf]
    · simp [hc]
  · intro desc hl hs hm
    unfold alxCreateSource
    by_cases hc : env.hasContext
    · by_cases hf : env.filenameOk
      · by_cases ht : st.mAudioTypeVolume.length ≤ desc.mType
        · simp [hc, hf, ht]
        · rw [List.getD_eq_getElem?_getD] at hm
          simp [hc, hf, ht, hl, hs, hm]
      · simp [hc, hf]
    · simp [hc]
  · intro desc hl hs hv
    unfold alxCreateSource
    by_cases hc : env.hasContext
    · by_cases hf : env.filenameOk
      · by_cases ht : st.mAudioTypeVolume.length ≤ desc.mType
        · simp [hc, hf, ht]
        · simp [hc, hf, ht, hl, hs, hv]
      · simp [hc, hf]
    · simp [hc]

/-- the create environment with an invalid (empty) filename -/
def envNoFile : CreateEnv where
  hasContext := true
  filenameOk := false
  bufferFound := none
  hasTransform := false
  listenerDistance := 0
  streamOk := false
  score := zeroScoreEnv

/-- C7 witness: an invalid filename is rejected with the state untouched -/
theorem claim_C7_witness :
    alxCreateSource (initState 1 [1]) envNoFile (some loopingDesc) 0 =
      (initState 1 [1], NULL_AUDIOHANDLE) :=
  (claim_C7 (initState 1 [1]) envNoFile 0).2.1 loopingDesc rfl

/-! ## C9: alxStop on null / unknown / already-stopped handles -/

/-- after removing the first match from a list with at most one match, no
match remains -/
theorem find?_eraseFirst_none (p : α → Bool) (l : List α)
    (hc : l.countP p ≤ 1) : (eraseFirst p l).find? p = none := by
  induction l with
  | nil => rfl
  | cons x xs ih =>
    by_cases hx : p x = true
    · rw [List.countP_cons_of_pos p xs hx] at hc
      have h0 : xs.countP p = 0 := by omega
      have he : eraseFirst p (x :: xs) = xs := by
        simp [eraseFirst, hx]
      rw [he, List.find?_eq_none]
      exact List.countP_eq_zero.mp h0
    · rw [List.countP_cons_of_neg p xs hx] at hc
      have he : eraseFirst p (x :: xs) = x :: eraseFirst p xs := by
        simp [eraseFirst, hx]
      rw [he, List.find?_cons_of_neg _ hx]
      exact ih hc

/-- clearing the unique slot that matches a handle leaves no slot matching
that handle -/
theorem alxFindIndex_clear (st : AlxState) (h i : ℕ)
    (hI : alxFindIndex st h = some i)
    (hslot : ∀ j, j < st.mNumSources → ∀ k, k < st.mNumSources →
      slotHandle st j ≠ NULL_AUDIOHANDLE →
      areEqualHandles (slotHandle st j) h = true →
      slotHandle st k ≠ NULL_AUDIOHANDLE →
      areEqualHandles (slotHandle st k) h = true → j = k) :
    alxFindIndex (clearSlot st i) h = none := by
  have hin : i < st.mNumSources :=
    List.mem_range.mp (List.mem_of_find?_eq_some hI)
  have hq := List.find?_some hI
  rw [Bool.and_eq_true, bne_iff_ne] at hq
  obtain ⟨hne, heq⟩ := hq
  have hilen : i < st.mHandle.length := by
    by_contra hge
    push_neg at hge
    apply hne
    unfold slotHandle
    rw [List.getD_eq_getElem?_getD, List.getElem?_eq_none hge]
    rfl
  have hs_i : slotHandle (clearSlot st i) i = NULL_AUDIOHANDLE := by
    show (st.mHandle.set i NULL_AUDIOHANDLE).getD i NULL_AUDIOHANDLE =
      NULL_AUDIOHANDLE
    rw [List.getD_eq_getElem?_getD, List.getElem?_set_self hilen]
    rfl
  have hs_ne : ∀ j, j ≠ i → slotHandle (clearSlot st i) j = slotHandle st j := by
    intro j hj
    show (st.mHandle.set i NULL_AUDIOHANDLE).getD j NULL_AUDIOHANDLE =
      slotHandle st j
    rw [List.getD_eq_getElem?_getD, List.getElem?_set_ne (Ne.symm hj),
      ← List.getD_eq_getElem?_getD]
    rfl
  show List.find? (fun j => slotHandle (clearSlot st i) j != NULL_AUDIOHANDLE &&
      areEqualHandles (slotHandle (clearSlot st i) j) h)
    (List.range st.mNumSources) = none
  rw [List.find?_eq_none]
  intro j hj
  simp only [List.mem_range] at hj
  intro hcontra
  rw [Bool.and_eq_true, bne_iff_ne] at hcontra
  obtain ⟨hne', heq'⟩ := hcontra
  by_cases hji : j = i
  · subst hji
    exact hne' hs_i
  · rw [hs_ne j hji] at hne' heq'
    exact hji (hslot j hj i hin hne' heq' hne heq)

/-- after removing the unique matching looping image, the handle is no longer
found on the master looping list -/
theorem loopingFind_erase (l : List LoopingImage) (h : ℕ)
    (hc : l.countP (fun im => areEqualHandles im.mHandle h) ≤ 1) :
    loopingFind (eraseFirst (fun im => areEqualHandles im.mHandle h) l) h =
      none := by
  unfold loopingFind
  by_cases hb : (h &&& LOOPING_BIT != 0) = true
  · rw [if_pos hb]
    exact find?_eraseFirst_none _ _ hc
  · rw [if_neg hb]

/-- after removing the unique matching streaming source, the handle is no
longer found on the master streaming list -/
theorem streamingFind_erase (l : List StreamingSource) (h : ℕ)
    (hc : l.countP (fun s => areEqualHandles s.mHandle h) ≤ 1) :
    streamingFind (eraseFirst (fun s => areEqualHandles s.mHandle h) l) h =
      none := by
  unfold streamingFind
  by_cases hb : (h &&& STREAMING_BIT != 0) = true
  · rw [if_pos hb]
    exact find?_eraseFirst_none _ _ hc
  · rw [if_neg hb]

/-- alxFindIndex only reads the voice count and the handle array -/
theorem alxFindIndex_congr (st st' : AlxState) (h : ℕ)
    (hn : st'.mNumSources = st.mNumSources) (hh : st'.mHandle = st.mHandle) :
    alxFindIndex st' h = alxFindIndex st h := by
  unfold alxFindIndex slotHandle
  rw [hn, hh]

/-- the membership-list removal touches neither the voice arrays nor the
master lists -/
theorem removeLoopingMembership_frame (st : AlxState) (h : ℕ)
    (im : LoopingImage) :
    (removeLoopingMembership st h im).mNumSources = st.mNumSources ∧
    (removeLoopingMembership st h im).mHandle = st.mHandle ∧
    (removeLoopingMembership st h im).mLoopingList = st.mLoopingList ∧
    (removeLoopingMembership st h im).mStreamingList = st.mStreamingList := by
  unfold removeLoopingMembership
  split_ifs <;> exact ⟨rfl, rfl, rfl, rfl⟩

/-- the membership-list removal touches neither the voice arrays nor the
master lists -/
theorem removeStreamingMembership_frame (st : AlxState) (h : ℕ)
    (s : StreamingSource) :
    (removeStreamingMembership st h s).mNumSources = st.mNumSources ∧
    (removeStreamingMembership st h s).mHandle = st.mHandle ∧
    (removeStreamingMembership st h s).mLoopingList = st.mLoopingList ∧
    (removeStreamingMembership st h s).mStreamingList = st.mStreamingList := by
  unfold removeStreamingMembership
  split_ifs <;> exact ⟨rfl, rfl, rfl, rfl⟩

/-- the voice block leaves everything but the handle and buffer arrays
unchanged -/
theorem stopVoice_frame (st : AlxState) (h : ℕ) :
    (stopVoice st h).mNumSources = st.mNumSources ∧
    (stopVoice st h).mLoopingList = st.mLoopingList ∧
    (stopVoice st h).mStreamingList = st.mStreamingList := by
  unfold stopVoice
  rcases alxFindIndex st h with _ | i
  · exact ⟨rfl, rfl, rfl⟩
  · exact ⟨rfl, rfl, rfl⟩

/-- the looping block leaves the voice arrays and the streaming side
unchanged -/
theorem stopLooping_frame (st : AlxState) (h : ℕ) :
    (stopLooping st h).mNumSources = st.mNumSources ∧
    (stopLooping st h).mHandle = st.mHandle ∧
    (stopLooping st h).mStreamingList = st.mStreamingList := by
  unfold stopLooping
  rcases loopingFind st.mLoopingList h with _ | im
  · exact ⟨rfl, rfl, rfl⟩
  · obtain ⟨r1, r2, _, r4⟩ := removeLoopingMembership_frame st h im
    exact ⟨r1, r2, r4⟩

/-- the streaming block leaves the voice arrays and the looping side
unchanged -/
theorem stopStreaming_frame (st : AlxState) (h : ℕ) :
    (stopStreaming st h).mNumSources = st.mNumSources ∧
    (stopStreaming st h).mHandle = st.mHandle ∧
    (stopStreaming st h).mLoopingList = st.mLoopingList := by
  unfold stopStreaming
  rcases streamingFind st.mStreamingList h with _ | s
  · exact ⟨rfl, rfl, rfl⟩
  · obtain ⟨r1, r2, r3, _⟩ := removeStreamingMembership_frame st h s
    exact ⟨r1, r2, r3⟩

/-- after the voice block, no slot holds the handle (slot matches were
unique) -/
theorem stopVoice_absent (st : AlxState) (h : ℕ)
    (hslot : ∀ j, j < st.mNumSources → ∀ k, k < st.mNumSources →
      slotHandle st j ≠ NULL_AUDIOHANDLE →
      areEqualHandles (slotHandle st j) h = true →
      slotHandle st k ≠ NULL_AUDIOHANDLE →
      areEqualHandles (slotHandle st k) h = true → j = k) :
    alxFindIndex (stopVoice st h) h = none := by
  unfold stopVoice
  rcases hI : alxFindIndex st h with _ | i
  · exact hI
  · exact alxFindIndex_clear st h i hI hslot

/-- after the looping block, the handle is not on the master looping list
(matches there were unique) -/
theorem stopLooping_absent (st : AlxState) (h : ℕ)
    (hloopc : st.mLoopingList.countP
      (fun im => areEqualHandles im.mHandle h) ≤ 1) :
    loopingFind (stopLooping st h).mLoopingList h = none := by
  unfold stopLooping
  rcases hL : loopingFind st.mLoopingList h with _ | im
  · exact hL
  · have r3 := (removeLoopingMembership_frame st h im).2.2.1
    show loopingFind (eraseFirst (fun im2 => areEqualHandles im2.mHandle h)
      (removeLoopingMembership st h im).mLoopingList) h = none
    rw [r3]
    exact loopingFind_erase _ _ hloopc

/-- after the streaming block, the handle is not on the master streaming
list (matches there were unique) -/
theorem stopStreaming_absent (st : AlxState) (h : ℕ)
    (hstrc : st.mStreamingList.countP
      (fun s => areEqualHandles s.mHandle h) ≤ 1) :
    streamingFind (stopStreaming st h).mStreamingList h = none := by
  unfold stopStreaming
  rcases hS : streamingFind st.mStreamingList h with _ | s
  · exact hS
  · have r4 := (removeStreamingMembership_frame st h s).2.2.2
    show streamingFind (eraseFirst (fun s2 => areEqualHandles s2.mHandle h)
      (removeStreamingMembership st h s).mStreamingList) h = none
    rw [r4]
    exact streamingFind_erase _ _ hstrc

/-- the voice block is the identity when no slot matches -/
theorem stopVoice_none (st : AlxState) (h : ℕ)
    (h1 : alxFindIndex st h = none) : stopVoice st h = st := by
  unfold stopVoice
  rw [h1]

/-- the looping block is the identity when the handle is not on the master
looping list -/
theorem stopLooping_none (st : AlxState) (h : ℕ)
    (h2 : loopingFind st.mLoopingList h = none) : stopLooping st h = st := by
  unfold stopLooping
  rw [h2]

/-- the streaming block is the identity when the handle is not on the master
streaming list -/
theorem stopStreaming_none (st : AlxState) (h : ℕ)
    (h3 : streamingFind st.mStreamingList h = none) :
    stopStreaming st h = st := by
  unfold stopStreaming
  rw [h3]

/-- alxStop is the identity when the handle backs no voice slot and is on
neither master list -/
theorem alxStop_absent (st : AlxState) (h : ℕ)
    (h1 : alxFindIndex st h = none)
    (h2 : loopingFind st.mLoopingList h = none)
    (h3 : streamingFind st.mStreamingList h = none) :
    alxStop st h = st := by
  unfold alxStop
  rw [stopVoice_none st h h1, stopLooping_none st h h2,
    stopStreaming_none st h h3]

/-- after an alxStop, the stopped handle backs no voice slot and is on
neither master list (given each structure held at most one match) -/
theorem alxStop_absent_after (st : AlxState) (h : ℕ)
    (hslot : ∀ j, j < st.mNumSources → ∀ k, k < st.mNumSources →
      slotHandle st j ≠ NULL_AUDIOHANDLE →
      areEqualHandles (slotHandle st j) h = true →
      slotHandle st k ≠ NULL_AUDIOHANDLE →
      areEqualHandles (slotHandle st k) h = true → j = k)
    (hloopc : st.mLoopingList.countP
      (fun im => areEqualHandles im.mHandle h) ≤ 1)
    (hstrc : st.mStreamingList.countP
      (fun s => areEqualHandles s.mHandle h) ≤ 1) :
    alxFindIndex (alxStop st h) h = none ∧
    loopingFind (alxStop st h).mLoopingList h = none ∧
    streamingFind (alxStop st h).mStreamingList h = none := by
  obtain ⟨v1, v2, v3⟩ := stopVoice_frame st h
  obtain ⟨l1, l2, l3⟩ := stopLooping_frame (stopVoice st h) h
  obtain ⟨s1, s2, s3⟩ := stopStreaming_frame (stopLooping (stopVoice st h) h) h
  unfold alxStop
  refine ⟨?_, ?_, ?_⟩
  · rw [alxFindIndex_congr (stopVoice st h)
      (stopStreaming (stopLooping (stopVoice st h) h) h) h
      (by rw [s1, l1]) (by rw [s2, l2])]
    exact stopVoice_absent st h hslot
  · rw [s3]
    apply stopLooping_absent
    rw [v2]
    exact hloopc
  · apply stopStreaming_absent
    rw [l3, v3]
    exact hstrc

/-- C9: when each pool structure holds at most one record matching the
handle, alxStop on an unknown handle (one that backs no voice slot and is on
neither master list) is the identity on the whole state; alxStop on the null
handle is the identity whenever no occupied slot carries an all-flag handle;
and stopping the same handle twice leaves exactly the state of stopping it
once. -/
theorem claim_C9 (st : AlxState) (handle : ℕ)
    (hslot : ∀ j, j < st.mNumSources → ∀ k, k < st.mNumSources →
      slotHandle st j ≠ NULL_AUDIOHANDLE →
      areEqualHandles (slotHandle st j) handle = true →
      slotHandle st k ≠ NULL_AUDIOHANDLE →
      areEqualHandles (slotHandle st k) handle = true → j = k)
    (hloopc : st.mLoopingList.countP
      (fun im => areEqualHandles im.mHandle handle) ≤ 1)
    (hstrc : st.mStreamingList.countP
      (fun s => areEqualHandles s.mHandle handle) ≤ 1) :
    (alxFindIndex st handle = none →
      loopingFind st.mLoopingList handle = none →
      streamingFind st.mStreamingList handle = none →
      alxStop st handle = st) ∧
    ((∀ j, j < st.mNumSources → slotHandle st j ≠ NULL_AUDIOHANDLE →
        keyOf (slotHandle st j) ≠ 0) →
      alxStop st NULL_AUDIOHANDLE = st) ∧
    alxStop (alxStop st handle) handle = alxStop st handle := by
  refine ⟨fun h1 h2 h3 => alxStop_absent st handle h1 h2 h3, ?_, ?_⟩
  · intro hkey
    apply alxStop_absent
    · unfold alxFindIndex
      rw [List.find?_eq_none]
      intro j hj
      simp only [List.mem_range] at hj
      intro hcontra
      rw [Bool.and_eq_true, bne_iff_ne] at hcontra
      obtain ⟨hne, heq⟩ := hcontra
      apply hkey j hj hne
      unfold areEqualHandles at heq
      rw [beq_iff_eq] at heq
      unfold keyOf
      rw [heq]
      unfold NULL_AUDIOHANDLE
      exact Nat.zero_and HANDLE_MASK
    · unfold loopingFind
      rw [if_neg]
      intro hb
      rw [bne_iff_ne] at hb
      exact hb (Nat.zero_and LOOPING_BIT)
    · unfold streamingFind
      rw [if_neg]
      intro hb
      rw [bne_iff_ne] at hb
      exact hb (Nat.zero_and STREAMING_BIT)
  · obtain ⟨a1, a2, a3⟩ := alxStop_absent_after st handle hslot hloopc hstrc
    exact alxStop_absent _ handle a1 a2 a3

/-- C9 witness: double-stop of a fresh handle value on the initial state -/
theorem claim_C9_witness :
    alxStop (alxStop (initState 1 [1]) 5) 5 = alxStop (initState 1 [1]) 5 :=
  (claim_C9 (initState 1 [1]) 5
    (by
      intro j hj k hk _ _ _ _
      have hn : (initState 1 [1]).mNumSources = 1 := rfl
      rw [hn] at hj hk
      omega)
    (by decide) (by decide)).2.2

/-! ## C3: play on an inactive source -/

/-- C3: a looping source sitting in the inactive set (its handle backs no
voice slot) is moved by alxPlay to the culled set — master list and voice
slots untouched — after which the looping reactivation pass runs on that
state, and the call returns the original (non-null) handle; a streaming
request that finds no free voice and no cullable voice is rejected by
alxCreateSource with the null handle outright (the streaming admission block
at audio.cc lines 694-728 is unreachable), so the inactive set never holds a
streaming source and the claim's streaming case is vacuous. -/
theorem claim_C3 (st : AlxState) (handle now : ℕ)
    (hIdx : alxFindIndex st handle = none)
    (hMem : loopingKeyMem st.mLoopingInactiveList handle = true) :
    (alxPlay st handle now).2 = handle ∧
    handle ≠ NULL_AUDIOHANDLE ∧
    (∃ st1, alxPlay st handle now = (alxLoopingUpdate st1 now, handle) ∧
      st1.mLoopingCulledList = st.mLoopingCulledList ++ [keyOf handle] ∧
      st1.mLoopingInactiveList =
        eraseKey (keyOf handle) st.mLoopingInactiveList ∧
      st1.mLoopingList = st.mLoopingList ∧
      st1.mHandle = st.mHandle) ∧
    (∀ env desc cnow, desc.mIsStreaming = true →
      MIN_GAIN < createVolume st env desc →
      findFreeSource st = none →
      cullSource (alxUpdateScores st env.score true cnow)
        (createVolume st env desc) cnow = none →
      (alxCreateSource st env (some desc) cnow).2 = NULL_AUDIOHANDLE) := by
  have hplay : alxPlay st handle now =
      (alxLoopingUpdate { st with
        mLoopingCulledList := st.mLoopingCulledList ++ [keyOf handle],
        mLoopingInactiveList :=
          eraseKey (keyOf handle) st.mLoopingInactiveList } now, handle) := by
    unfold alxPlay
    rw [hIdx]
    simp only [hMem, if_true]
  refine ⟨by rw [hplay], ?_, ⟨_, hplay, rfl, rfl, rfl, rfl⟩, ?_⟩
  · intro h0
    unfold loopingKeyMem at hMem
    rw [Bool.and_eq_true, bne_iff_ne] at hMem
    apply hMem.1
    rw [h0]
    exact Nat.zero_and LOOPING_BIT
  · intro env desc cnow hstream hvol hfree hcull
    unfold alxCreateSource
    by_cases hc : env.hasContext
    · by_cases hf : env.filenameOk
      · by_cases ht : st.mAudioTypeVolume.length ≤ desc.mType
        · simp [hc, hf, ht]
        · rw [alxUpdateScores_sourcesOnly] at hcull
          simp [hc, hf, ht, hstream, hvol, hfree, hcull,
            alxUpdateScores_sourcesOnly]
      · simp [hc, hf]
    · simp [hc]

/-- a one-voice pool whose only voice is free, with a looping image waiting
on the inactive list under key 1 (handle 0xA0000001: LOOPING and INACTIVE
bits plus sequence number 1) -/
def c3Image : LoopingImage where
  mHandle := 0xA0000001
  mBuffer := some 1
  mDescription := loopingDesc
  mScore := 1 / 2
  mCullTime := 0

def c3State : AlxState where
  mNumSources := 1
  mHandle := [NULL_AUDIOHANDLE]
  mBuffer := [none]
  mScore := [0]
  mSourceVolume := [0]
  mType := [0]
  mAudioTypeVolume := [1]
  mLoopingList := [c3Image]
  mLoopingInactiveList := [1]
  mLoopingCulledList := []
  mStreamingList := []
  mStreamingInactiveList := []
  mStreamingCulledList := []
  mLastHandle := 1

/-- C3 witness: playing the waiting inactive looping handle returns that
handle -/
theorem claim_C3_witness :
    (alxPlay c3State 0xA0000001 0).2 = 0xA0000001 :=
  (claim_C3 c3State 0xA0000001 0 (by decide) (by decide)).1

/-! ## C6: the cull-dwell-time filter of the reactivation passes -/

/-- an element not satisfying `p` survives eraseFirst -/
theorem mem_eraseFirst (p : α → Bool) (l : List α) (a : α)
    (ha : a ∈ l) (hp : p a = false) : a ∈ eraseFirst p l := by
  induction l with
  | nil => cases ha
  | cons x xs ih =>
    by_cases hx : p x = true
    · have he : eraseFirst p (x :: xs) = xs := by simp [eraseFirst, hx]
      rw [he]
      rcases List.mem_cons.mp ha with h1 | h1
      · rw [h1, hx] at hp
        cases hp
      · exact h1
    · have he : eraseFirst p (x :: xs) = x :: eraseFirst p xs := by
        simp [eraseFirst, hx]
      rw [he]
      rcases List.mem_cons.mp ha with h1 | h1
      · rw [h1]
        exact List.mem_cons_self x (eraseFirst p xs)
      · exact List.mem_cons_of_mem x (ih h1)

/-- keys different from the erased one survive eraseKey -/
theorem mem_eraseKey (k k' : ℕ) (l : List ℕ) (hne : k ≠ k') (hk : k ∈ l) :
    k ∈ eraseKey k' l :=
  mem_eraseFirst _ l k hk (beq_eq_false_iff_ne.mpr hne)

/-- clearing the INACTIVE and LOADING bits does not change a handle's key -/
theorem keyOf_and_return (h : ℕ) : keyOf (h &&& RETURN_MASK) = keyOf h := by
  unfold keyOf
  rw [Nat.and_assoc]
  have hm : RETURN_MASK &&& HANDLE_MASK = HANDLE_MASK := by decide
  rw [hm]

theorem keyOf_null : keyOf NULL_AUDIOHANDLE = 0 := by decide

/-- a slot array write: each position holds either the written value (at the
written index) or its old value -/
theorem getD_set_cases (l : List ℕ) (idx i h d : ℕ) :
    (i = idx ∧ (l.set idx h).getD i d = h) ∨
    (l.set idx h).getD i d = l.getD i d := by
  by_cases hii : i = idx
  · subst hii
    by_cases hlen : i < l.length
    · left
      refine ⟨rfl, ?_⟩
      rw [List.getD_eq_getElem?_getD, List.getElem?_set_self hlen]
      rfl
    · right
      push_neg at hlen
      rw [List.set_eq_of_length_le hlen]
  · right
    rw [List.getD_eq_getElem?_getD, List.getElem?_set_ne fun he => hii he.symm,
      ← List.getD_eq_getElem?_getD]

/-- the image found under key `k` indeed has key `k` -/
theorem imageOfKey_key (st : AlxState) (k : ℕ) (im : LoopingImage)
    (him : imageOfKey st k = some im) : keyOf im.mHandle = k := by
  have := List.find?_some him
  rwa [beq_iff_eq] at this

theorem streamOfKey_key (st : AlxState) (k : ℕ) (s : StreamingSource)
    (hs : streamOfKey st k = some s) : keyOf s.mHandle = k := by
  have := List.find?_some hs
  rwa [beq_iff_eq] at this

/-- the voice-slot half of alxPlay changes no membership list, and no slot's
key -/
theorem alxPlayIndexed_frame (st : AlxState) (idx h : ℕ) :
    (alxPlayIndexed st idx h).1.mNumSources = st.mNumSources ∧
    (alxPlayIndexed st idx h).1.mLoopingCulledList = st.mLoopingCulledList ∧
    (alxPlayIndexed st idx h).1.mStreamingCulledList = st.mStreamingCulledList ∧
    ∀ i, keyOf (slotHandle (alxPlayIndexed st idx h).1 i) =
      keyOf (slotHandle st i) := by
  unfold alxPlayIndexed
  split_ifs with hb
  · refine ⟨rfl, rfl, rfl, ?_⟩
    intro i
    show keyOf ((st.mHandle.set idx (slotHandle st idx &&& RETURN_MASK)).getD i
      NULL_AUDIOHANDLE) = keyOf (slotHandle st i)
    rcases getD_set_cases st.mHandle idx i (slotHandle st idx &&& RETURN_MASK)
        NULL_AUDIOHANDLE with ⟨hii, hc⟩ | hc
    · rw [hc, keyOf_and_return, hii]
    · rw [hc]
      rfl
  · exact ⟨rfl, rfl, rfl, fun i => rfl⟩

/-- variant of the key-preservation fact bounded by the voice count -/
theorem alxPlayIndexed_keys (st : AlxState) (idx h k : ℕ)
    (hv : ∀ i, i < st.mNumSources → keyOf (slotHandle st i) ≠ k) :
    ∀ i, i < (alxPlayIndexed st idx h).1.mNumSources →
      keyOf (slotHandle (alxPlayIndexed st idx h).1 i) ≠ k := by
  obtain ⟨f1, _, _, f4⟩ := alxPlayIndexed_frame st idx h
  intro i hi
  rw [f1] at hi
  rw [f4 i]
  exact hv i hi

/-- nothing already on a culled list falls off it during a cull demotion -/
theorem cullDemote_lists (st : AlxState) (h now : ℕ) :
    (∀ k, k ∈ st.mLoopingCulledList →
      k ∈ (cullDemote st h now).mLoopingCulledList) ∧
    (∀ k, k ∈ st.mStreamingCulledList →
      k ∈ (cullDemote st h now).mStreamingCulledList) := by
  unfold cullDemote
  dsimp only
  split_ifs <;> constructor <;> intro k hk <;> simp [hk]

/-- a successful cull keeps every key already on a culled list there -/
theorem cullSource_lists (st : AlxState) (v : ℚ) (now best : ℕ)
    (st2 : AlxState) (hsome : cullSource st v now = some (best, st2)) :
    (∀ k, k ∈ st.mLoopingCulledList → k ∈ st2.mLoopingCulledList) ∧
    (∀ k, k ∈ st.mStreamingCulledList → k ∈ st2.mStreamingCulledList) := by
  unfold cullSource at hsome
  rcases hsc : cullScan st v with _ | best1
  · rw [hsc] at hsome
    simp at hsome
  · rw [hsc] at hsome
    simp only [Option.some.injEq, Prod.mk.injEq] at hsome
    obtain ⟨hb, hst⟩ := hsome
    subst hb
    subst hst
    exact cullDemote_lists st (slotHandle st best1) now

/-- every element of an insertion-sorted list came from the input -/
theorem mem_insertByCmp (cmp : α → α → ℤ) (x a : α) (l : List α)
    (ha : a ∈ insertByCmp cmp x l) : a = x ∨ a ∈ l := by
  induction l with
  | nil =>
    simp [insertByCmp] at ha
    exact Or.inl ha
  | cons y ys ih =>
    unfold insertByCmp at ha
    split_ifs at ha
    · rcases List.mem_cons.mp ha with h1 | h1
      · exact Or.inl h1
      · exact Or.inr h1
    · rcases List.mem_cons.mp ha with h1 | h1
      · exact Or.inr (h1 ▸ List.mem_cons_self y ys)
      · rcases ih h1 with h2 | h2
        · exact Or.inl h2
        · exact Or.inr (List.mem_cons_of_mem y h2)

/-- dQsort adds no elements -/
theorem mem_dQsort (cmp : α → α → ℤ) (a : α) (l : List α)
    (ha : a ∈ dQsort cmp l) : a ∈ l := by
  induction l with
  | nil => simpa [dQsort] using ha
  | cons y ys ih =>
    unfold dQsort at ha
    rw [List.foldr_cons] at ha
    rcases mem_insertByCmp _ y a _ ha with h1 | h1
    · exact h1 ▸ List.mem_cons_self y ys
    · exact List.mem_cons_of_mem y (ih h1)

theorem mem_sortLoopingCandidates (st : AlxState) (cands : List ℕ) (a : ℕ)
    (ha : a ∈ sortLoopingCandidates st cands) : a ∈ cands := by
  unfold sortLoopingCandidates at ha
  split_ifs at ha
  · exact mem_dQsort _ a cands ha
  · exact ha

theorem mem_sortStreamingCandidates (st : AlxState) (cands : List ℕ) (a : ℕ)
    (ha : a ∈ sortStreamingCandidates st cands) : a ∈ cands := by
  unfold sortStreamingCandidates at ha
  split_ifs at ha
  · exact mem_dQsort _ a cands ha
  · exact ha

/-- the dwell-time filter: a culled image inside the minimum uncull period is
not a reactivation candidate -/
theorem loopingCandidates_dwell (st : AlxState) (now k : ℕ) (im : LoopingImage)
    (him : imageOfKey st k = some im)
    (hdwell : subU32 now im.mCullTime < MIN_UNCULL_PERIOD) :
    k ∉ loopingCandidates st now := by
  intro hk
  unfold loopingCandidates at hk
  have hp := List.of_mem_filter hk
  rw [him] at hp
  simp at hp
  omega

theorem streamingCandidates_dwell (st : AlxState) (now k : ℕ)
    (s : StreamingSource) (hs : streamOfKey st k = some s)
    (hdwell : subU32 now s.mCullTime < MIN_UNCULL_PERIOD) :
    k ∉ streamingCandidates st now := by
  intro hk
  unfold streamingCandidates at hk
  have hp := List.of_mem_filter hk
  rw [hs] at hp
  simp at hp
  omega

/-- promotion of a different candidate keeps `k` culled and off the voices -/
theorem loopingPromote_inv (st : AlxState) (idx k1 k : ℕ) (hne : k ≠ k1)
    (hmem : k ∈ st.mLoopingCulledList)
    (hv : ∀ i, i < st.mNumSources → keyOf (slotHandle st i) ≠ k) :
    (loopingPromote st idx k1).mNumSources = st.mNumSources ∧
    k ∈ (loopingPromote st idx k1).mLoopingCulledList ∧
    ∀ i, i < (loopingPromote st idx k1).mNumSources →
      keyOf (slotHandle (loopingPromote st idx k1) i) ≠ k := by
  unfold loopingPromote
  rcases him : imageOfKey st k1 with _ | im
  · exact ⟨rfl, hmem, hv⟩
  · have hkey := imageOfKey_key st k1 im him
    obtain ⟨f1, f2, _, _⟩ := alxPlayIndexed_frame
      (promoteWrite (leaveLoopingCulled st k1) idx im) idx im.mHandle
    refine ⟨?_, ?_, ?_⟩
    · show (alxPlayIndexed (promoteWrite (leaveLoopingCulled st k1) idx im)
        idx im.mHandle).1.mNumSources = st.mNumSources
      exact f1.trans rfl
    · show k ∈ (alxPlayIndexed (promoteWrite (leaveLoopingCulled st k1) idx im)
        idx im.mHandle).1.mLoopingCulledList
      rw [f2]
      show k ∈ eraseKey k1 st.mLoopingCulledList
      exact mem_eraseKey k k1 _ hne hmem
    · show ∀ i, i < (alxPlayIndexed (promoteWrite (leaveLoopingCulled st k1)
          idx im) idx im.mHandle).1.mNumSources →
        keyOf (slotHandle (alxPlayIndexed (promoteWrite
          (leaveLoopingCulled st k1) idx im) idx im.mHandle).1 i) ≠ k
      apply alxPlayIndexed_keys
      intro i hi
      show keyOf ((st.mHandle.set idx im.mHandle).getD i NULL_AUDIOHANDLE) ≠ k
      rcases getD_set_cases st.mHandle idx i im.mHandle NULL_AUDIOHANDLE with
        ⟨hii, hc⟩ | hc
      · rw [hc, hkey]
        exact fun he => hne he.symm
      · rw [hc]
        exact hv i hi

/-- promotion of a different streaming candidate keeps `k` culled and off
the voices -/
theorem streamingPromote_inv (st : AlxState) (idx k1 k : ℕ) (hne : k ≠ k1)
    (hmem : k ∈ st.mStreamingCulledList)
    (hv : ∀ i, i < st.mNumSources → keyOf (slotHandle st i) ≠ k) :
    (streamingPromote st idx k1).mNumSources = st.mNumSources ∧
    k ∈ (streamingPromote st idx k1).mStreamingCulledList ∧
    ∀ i, i < (streamingPromote st idx k1).mNumSources →
      keyOf (slotHandle (streamingPromote st idx k1) i) ≠ k := by
  unfold streamingPromote
  rcases hss : streamOfKey st k1 with _ | s
  · exact ⟨rfl, hmem, hv⟩
  · have hkey := streamOfKey_key st k1 s hss
    obtain ⟨f1, _, f3, _⟩ := alxPlayIndexed_frame
      (streamWrite (leaveStreamingCulled st k1) idx s) idx s.mHandle
    refine ⟨?_, ?_, ?_⟩
    · show (alxPlayIndexed (streamWrite (leaveStreamingCulled st k1) idx s)
        idx s.mHandle).1.mNumSources = st.mNumSources
      exact f1.trans rfl
    · show k ∈ (alxPlayIndexed (streamWrite (leaveStreamingCulled st k1) idx s)
        idx s.mHandle).1.mStreamingCulledList
      rw [f3]
      show k ∈ eraseKey k1 st.mStreamingCulledList
      exact mem_eraseKey k k1 _ hne hmem
    · show ∀ i, i < (alxPlayIndexed (streamWrite (leaveStreamingCulled st k1)
          idx s) idx s.mHandle).1.mNumSources →
        keyOf (slotHandle (alxPlayIndexed (streamWrite
          (leaveStreamingCulled st k1) idx s) idx s.mHandle).1 i) ≠ k
      apply alxPlayIndexed_keys
      intro i hi
      show keyOf ((st.mHandle.set idx s.mHandle).getD i NULL_AUDIOHANDLE) ≠ k
      rcases getD_set_cases st.mHandle idx i s.mHandle NULL_AUDIOHANDLE with
        ⟨hii, hc⟩ | hc
      · rw [hc, hkey]
        exact fun he => hne he.symm
      · rw [hc]
        exact hv i hi

/-- the looping candidate loop never touches a key outside its candidate
list: `k` stays culled and backs no voice -/
theorem loopingPromoteLoop_inv (now k : ℕ) (hk0 : k ≠ 0) :
    ∀ cands st, k ∉ cands → k ∈ st.mLoopingCulledList →
      (∀ i, i < st.mNumSources → keyOf (slotHandle st i) ≠ k) →
      k ∈ (loopingPromoteLoop st now cands).mLoopingCulledList ∧
      ∀ i, i < (loopingPromoteLoop st now cands).mNumSources →
        keyOf (slotHandle (loopingPromoteLoop st now cands) i) ≠ k := by
  intro cands
  induction cands with
  | nil =>
    intro st _ hmem hv
    exact ⟨hmem, hv⟩
  | cons k1 rest ih =>
    intro st hnot hmem hv
    have hne : k ≠ k1 := fun he => hnot (he ▸ List.mem_cons_self k1 rest)
    have hrest : k ∉ rest := fun hr => hnot (List.mem_cons_of_mem k1 hr)
    unfold loopingPromoteLoop
    rcases him : imageOfKey st k1 with _ | im
    · simp only [him]
      exact ih st hrest hmem hv
    · rcases hfree : findFreeSource st with _ | idx
      · rcases hcull : cullSource st im.mScore now with _ | ⟨idx2, stC⟩
        · simp only [him, hfree, hcull]
          exact ⟨hmem, hv⟩
        · simp only [him, hfree, hcull]
          obtain ⟨_, _, _, hH, _, _, hN⟩ :=
            (cullSource_spec st im.mScore now).2 idx2 stC hcull
          have hmemC : k ∈ stC.mLoopingCulledList :=
            (cullSource_lists st im.mScore now idx2 stC hcull).1 k hmem
          have hvC : ∀ i, i < stC.mNumSources → keyOf (slotHandle stC i) ≠ k := by
            intro i hi
            rw [hN] at hi
            unfold slotHandle
            rw [hH]
            rcases getD_set_cases st.mHandle idx2 i NULL_AUDIOHANDLE
                NULL_AUDIOHANDLE with ⟨hii, hc⟩ | hc
            · rw [hc, keyOf_null]
              exact fun he => hk0 he.symm
            · rw [hc]
              exact hv i hi
          by_cases hbuf : im.mBuffer.isNone
          · rw [if_pos hbuf]
            apply ih (dropLoopingImage stC k1) hrest
            · show k ∈ eraseKey k1 stC.mLoopingCulledList
              exact mem_eraseKey k k1 _ hne hmemC
            · exact hvC
          · rw [if_neg hbuf]
            obtain ⟨_, p2, p3⟩ := loopingPromote_inv stC idx2 k1 k hne hmemC hvC
            exact ih (loopingPromote stC idx2 k1) hrest p2 p3
      · simp only [him, hfree]
        obtain ⟨_, p2, p3⟩ := loopingPromote_inv st idx k1 k hne hmem hv
        exact ih (loopingPromote st idx k1) hrest p2 p3

/-- the streaming candidate loop never touches a key outside its candidate
list -/
theorem streamingPromoteLoop_inv (now k : ℕ) (hk0 : k ≠ 0) :
    ∀ cands st, k ∉ cands → k ∈ st.mStreamingCulledList →
      (∀ i, i < st.mNumSources → keyOf (slotHandle st i) ≠ k) →
      k ∈ (streamingPromoteLoop st now cands).mStreamingCulledList ∧
      ∀ i, i < (streamingPromoteLoop st now cands).mNumSources →
        keyOf (slotHandle (streamingPromoteLoop st now cands) i) ≠ k := by
  intro cands
  induction cands with
  | nil =>
    intro st _ hmem hv
    exact ⟨hmem, hv⟩
  | cons k1 rest ih =>
    intro st hnot hmem hv
    have hne : k ≠ k1 := fun he => hnot (he ▸ List.mem_cons_self k1 rest)
    have hrest : k ∉ rest := fun hr => hnot (List.mem_cons_of_mem k1 hr)
    unfold streamingPromoteLoop
    rcases hss : streamOfKey st k1 with _ | s
    · simp only [hss]
      exact ih st hrest hmem hv
    · rcases hfree : findFreeSource st with _ | idx
      · rcases hcull : cullSource st s.mScore now with _ | ⟨idx2, stC⟩
        · simp only [hss, hfree, hcull]
          exact ⟨hmem, hv⟩
        · simp only [hss, hfree, hcull]
          obtain ⟨_, _, _, hH, _, _, hN⟩ :=
            (cullSource_spec st s.mScore now).2 idx2 stC hcull
          have hmemC : k ∈ stC.mStreamingCulledList :=
            (cullSource_lists st s.mScore now idx2 stC hcull).2 k hmem
          have hvC : ∀ i, i < stC.mNumSources → keyOf (slotHandle stC i) ≠ k := by
            intro i hi
            rw [hN] at hi
            unfold slotHandle
            rw [hH]
            rcases getD_set_cases st.mHandle idx2 i NULL_AUDIOHANDLE
                NULL_AUDIOHANDLE with ⟨hii, hc⟩ | hc
            · rw [hc, keyOf_null]
              exact fun he => hk0 he.symm
            · rw [hc]
              exact hv i hi
          apply ih (dropStreamingSource stC k1) hrest
          · show k ∈ eraseKey k1 stC.mStreamingCulledList
            exact mem_eraseKey k k1 _ hne hmemC
          · exact hvC
      · simp only [hss, hfree]
        obtain ⟨_, p2, p3⟩ := streamingPromote_inv st idx k1 k hne hmem hv
        exact ih (streamingPromote st idx k1) hrest p2 p3

/-- the looping reactivation pass keeps an excluded key culled and voiceless -/
theorem alxLoopingUpdate_inv (st : AlxState) (now k : ℕ) (hk0 : k ≠ 0)
    (hnc : k ∉ loopingCandidates st now)
    (hmem : k ∈ st.mLoopingCulledList)
    (hv : ∀ i, i < st.mNumSources → keyOf (slotHandle st i) ≠ k) :
    k ∈ (alxLoopingUpdate st now).mLoopingCulledList ∧
    ∀ i, i < (alxLoopingUpdate st now).mNumSources →
      keyOf (slotHandle (alxLoopingUpdate st now) i) ≠ k := by
  unfold alxLoopingUpdate
  split_ifs with h1 h2
  · exact ⟨hmem, hv⟩
  · exact ⟨hmem, hv⟩
  · exact loopingPromoteLoop_inv now k hk0 _ st
      (fun hs => hnc (mem_sortLoopingCandidates st _ k hs)) hmem hv

/-- the streaming reactivation pass keeps an excluded key culled and
voiceless -/
theorem alxStreamingUpdate_inv (st : AlxState) (now k : ℕ) (hk0 : k ≠ 0)
    (hnc : k ∉ streamingCandidates st now)
    (hmem : k ∈ st.mStreamingCulledList)
    (hv : ∀ i, i < st.mNumSources → keyOf (slotHandle st i) ≠ k) :
    k ∈ (alxStreamingUpdate st now).mStreamingCulledList ∧
    ∀ i, i < (alxStreamingUpdate st now).mNumSources →
      keyOf (slotHandle (alxStreamingUpdate st now) i) ≠ k := by
  unfold alxStreamingUpdate
  split_ifs with h1 h2
  · exact ⟨hmem, hv⟩
  · exact ⟨hmem, hv⟩
  · exact streamingPromoteLoop_inv now k hk0 _ st
      (fun hs => hnc (mem_sortStreamingCandidates st _ k hs)) hmem hv

/-- C6: a culled source whose time since cull is below MIN_UNCULL_PERIOD is
excluded from the reactivation candidate list (regardless of its score, in
particular even above MIN_UNCULL_GAIN), and the whole pass leaves it on the
culled list with its key backing no voice slot — it is never promoted during
that pass.  Stated for the looping and the streaming pass. -/
theorem claim_C6 (st : AlxState) (now k : ℕ) (hk0 : k ≠ 0)
    (hv : ∀ i, i < st.mNumSources → keyOf (slotHandle st i) ≠ k) :
    (∀ im, imageOfKey st k = some im →
      subU32 now im.mCullTime < MIN_UNCULL_PERIOD →
      k ∉ loopingCandidates st now ∧
      (k ∈ st.mLoopingCulledList →
        k ∈ (alxLoopingUpdate st now).mLoopingCulledList ∧
        ∀ i, i < (alxLoopingUpdate st now).mNumSources →
          keyOf (slotHandle (alxLoopingUpdate st now) i) ≠ k)) ∧
    (∀ s, streamOfKey st k = some s →
      subU32 now s.mCullTime < MIN_UNCULL_PERIOD →
      k ∉ streamingCandidates st now ∧
      (k ∈ st.mStreamingCulledList →
        k ∈ (alxStreamingUpdate st now).mStreamingCulledList ∧
        ∀ i, i < (alxStreamingUpdate st now).mNumSources →
          keyOf (slotHandle (alxStreamingUpdate st now) i) ≠ k)) := by
  constructor
  · intro im him hdwell
    have hnc := loopingCandidates_dwell st now k im him hdwell
    exact ⟨hnc, fun hmem => alxLoopingUpdate_inv st now k hk0 hnc hmem hv⟩
  · intro s hs hdwell
    have hnc := streamingCandidates_dwell st now k s hs hdwell
    exact ⟨hnc, fun hmem => alxStreamingUpdate_inv st now k hk0 hnc hmem hv⟩

/-- C6 witness: the image culled at time 0 is no reactivation candidate at
time 100 -/
theorem claim_C6_witness :
    1 ∉ loopingCandidates c3State 100 :=
  ((claim_C6 c3State 100 1 (by decide) (by decide)).1 c3Image rfl
    (by decide)).1

/-! ## C2: the three-state membership invariant of looping sources -/

/-- Modelled from the claim: "active" membership — the image's handle
occupies a voice slot with the INACTIVE bit clear. -/
def activeStrict (st : AlxState) (h : ℕ) : Bool :=
  (List.range st.mNumSources).any (fun i =>
    slotHandle st i != NULL_AUDIOHANDLE &&
    areEqualHandles (slotHandle st i) h &&
    (slotHandle st i &&& INACTIVE_BIT == 0))

/-- Modelled from the claim, with the natural relaxation: the handle
occupies a voice slot, whatever its INACTIVE bit. -/
def activeRelaxed (st : AlxState) (h : ℕ) : Bool :=
  (List.range st.mNumSources).any (fun i =>
    slotHandle st i != NULL_AUDIOHANDLE &&
    areEqualHandles (slotHandle st i) h)

/-- Modelled from the claim: how many of the three membership states
(active-strict, the inactive list, the culled list) hold the handle. -/
def membershipCount (st : AlxState) (h : ℕ) : ℕ :=
  (if activeStrict st h then 1 else 0) +
  (if loopingKeyMem st.mLoopingInactiveList h then 1 else 0) +
  (if loopingKeyMem st.mLoopingCulledList h then 1 else 0)

/-- the same count with the relaxed reading of active -/
def membershipCountRelaxed (st : AlxState) (h : ℕ) : ℕ :=
  (if activeRelaxed st h then 1 else 0) +
  (if loopingKeyMem st.mLoopingInactiveList h then 1 else 0) +
  (if loopingKeyMem st.mLoopingCulledList h then 1 else 0)

/-- the state after admitting a full-volume looping source to the free voice
of a one-voice pool -/
def c2Created : AlxState :=
  (alxCreateSource (initState 1 [1]) witnessCreateEnv (some loopingDesc) 0).1

/-- one update tick later, the voice never having started playing -/
def c2Ticked : AlxState :=
  alxUpdate c2Created (fun _ => false) zeroScoreEnv 0

/-- the image admitted in `c2Created`, spelled out -/
def c2Image : LoopingImage where
  mHandle := 0xA0000001
  mBuffer := some 1
  mDescription := loopingDesc
  mScore := 1
  mCullTime := 0

/-- `c2Created`, spelled out -/
def c2S : AlxState where
  mNumSources := 1
  mHandle := [0xA0000001]
  mBuffer := [some 1]
  mScore := [1]
  mSourceVolume := [1]
  mType := [0]
  mAudioTypeVolume := [1]
  mLoopingList := [c2Image]
  mLoopingInactiveList := []
  mLoopingCulledList := []
  mStreamingList := []
  mStreamingInactiveList := []
  mStreamingCulledList := []
  mLastHandle := 1

/-- C2: refuted on a two-operation trace.  After alxCreateSource admits a
looping source straight to a free voice (a completed public operation), the
slot still carries the INACTIVE bit (it stays until alxPlay), so under the
claim's definition of active the image is a member of ZERO of the three
states; and after one update tick during which the voice never reached
AL_PLAYING, alxCloseHandles reaps the slot without demoting the image (the
demotion at audio.cc 1856-1877 only fires when the slot's INACTIVE bit is
clear), leaving the image on the master list with zero memberships even
under the relaxed reading of active — stranded where no reactivation pass
or score update will ever touch it. -/
theorem claim_C2 :
    (c2Created.mLoopingList.map LoopingImage.mHandle = [0xA0000001] ∧
      membershipCount c2Created 0xA0000001 = 0) ∧
    (c2Ticked.mLoopingList.map LoopingImage.mHandle = [0xA0000001] ∧
      membershipCount c2Ticked 0xA0000001 = 0 ∧
      membershipCountRelaxed c2Ticked 0xA0000001 = 0) := by
  have hstate : c2Created = c2S := by
    norm_num [c2Created, alxCreateSource, createVolume, initState,
      witnessCreateEnv, loopingDesc, zeroScoreEnv, findFreeSource, slotHandle,
      getNewHandle, nextHandleVal, approximate3DVolume, MIN_GAIN,
      NULL_AUDIOHANDLE, keyOf, c2S, c2Image, List.range_succ, HANDLE_MASK,
      WORD32, LOOPING_BIT, INACTIVE_BIT, LOADING_BIT, RETURN_MASK]
    all_goals decide
  have hticked : c2Ticked = alxUpdate c2S (fun _ => false) zeroScoreEnv 0 := by
    unfold c2Ticked
    rw [hstate]
  rw [hstate, hticked]
  refine ⟨⟨by decide, by decide⟩, by decide, by decide, by decide⟩

end TGEAudio
